import Mathlib

/-!
Verification development for the threadx cross-worker data-sharing runtime.

The TypeScript source is shallowly embedded: JS numbers appearing in 32-bit
integer contexts are modelled as `Int` normalised into the signed 32-bit
range, JS doubles stored in float64 slots are modelled as exact rationals
(`Rat`) — every operation the development verifies on them is store, load and
strict equality, on which doubles and rationals agree except for the `NaN`
and `-0` edge cases, which no claim exercises — and JS strings are modelled
as their lists of UTF-16 code units (`List Nat`), matching `charCodeAt` /
`String.fromCharCode`.

The `SharedArrayBuffer` is viewed by the source through three typed arrays
(`Uint16Array`, `Int32Array`, `Float64Array`) over the same bytes.  The
embedding models the three views as three separate maps plus the byte length.
This is faithful for every access the source performs because the verified
layout theorems show all property slots are pairwise disjoint byte ranges
disjoint from the 40-byte header, each slot is accessed through exactly one
view, and the header words are accessed only through the int32 view.
Out-of-range typed-array reads yield `undefined` in JS; in every context the
source uses them they coerce like `0`, which is how the embedding models
them, except in the `BufferStruct` constructor where the distinction is
observable and an `Option` read is used.
-/

/-! ### JS 32-bit integer primitives -/

/-- Unsigned 32-bit residue of a JS number in an integer context. -/
def toU32 (x : Int) : Nat := (x % 4294967296).toNat

/-- Reinterpret an unsigned 32-bit residue as a signed 32-bit value. -/
def u32ToI32 (n : Nat) : Int := if n < 2147483648 then (n : Int) else (n : Int) - 4294967296

/-- JS `ToInt32` on an integral value (the coercion applied by `Int32Array` stores). -/
def int32Wrap (x : Int) : Int := u32ToI32 (toU32 x)

/-- JS `a | b` on int32 operands. -/
def jsOr (a b : Int) : Int := u32ToI32 (toU32 a ||| toU32 b)

/-- JS `a & b` on int32 operands. -/
def jsAnd (a b : Int) : Int := u32ToI32 (toU32 a &&& toU32 b)

/-- JS `~a` on an int32 operand: exactly `-(a+1)` wrapped to 32 bits. -/
def jsNot (a : Int) : Int := int32Wrap (-(a + 1))

/-- JS `a << s` with a nonnegative shift amount (shift counts are taken mod 32). -/
def jsShl (a : Int) (s : Nat) : Int := u32ToI32 ((toU32 a <<< (s % 32)) % 4294967296)

/-- Truncation toward zero of a JS double, first step of `ToInt32`. -/
def ratTrunc (q : Rat) : Int := if 0 ≤ q then ⌊q⌋ else ⌈q⌉

/-- JS `ToInt32` applied to a double (the coercion of an `Int32Array` store). -/
def jsToInt32 (q : Rat) : Int := int32Wrap (ratTrunc q)

/-! ### TypeId codec (buffer-struct-utils)

Source: `isValidTypeIdCharCode`, `genTypeId`, `isValidTypeId`,
`stringifyTypeId`.  Type-id strings carry only code units in `A-Z` / `0-9`,
so they are modelled as lists of code units; the decoded string `"????"` is
the list `[63, 63, 63, 63]`. -/

/-- Source `isValidTypeIdCharCode`: uppercase letters and digits only. -/
def isValidTypeIdCharCode (charCode : Nat) : Bool :=
  (65 ≤ charCode && charCode ≤ 90) || (48 ≤ charCode && charCode ≤ 57)

inductive GenTypeIdError where
  | lengthTooShort
  | lengthTooLong
  | invalidChar
deriving DecidableEq, Repr

/-- Accumulation loop of `genTypeId`: `typeId |= charCode << (i * 8)` over the
tag's code units.  The source's `charCode !== charCode` NaN guard is dead for
indices below the string length and is omitted. -/
def genTypeIdGo (typeId : Nat) (i : Nat) : List Nat → Except GenTypeIdError Nat
  | [] => .ok typeId
  | charCode :: rest =>
    if !isValidTypeIdCharCode charCode then .error .invalidChar
    else genTypeIdGo (typeId ||| (charCode <<< (i * 8))) (i + 1) rest

/-- Source `genTypeId`: packs a 1–4 character `A-Z0-9` tag into a 32-bit id,
little-endian byte per character. -/
def genTypeId (tidString : List Nat) : Except GenTypeIdError Nat :=
  if tidString.length = 0 then .error .lengthTooShort
  else if tidString.length > 4 then .error .lengthTooLong
  else genTypeIdGo 0 0 tidString

/-- The index sequence of the codec's `for (let i = 0; i < 4; i++)` loops. -/
def typeIdIndices : List Nat := [0, 1, 2, 3]

/-- Loop of `isValidTypeId` over the remaining loop indices: inspects the low
byte, bails on an invalid non-zero byte (or a zero byte in position 0), then
shifts right by 8 (`typeId >>>= 8`). -/
def isValidTypeIdGo (typeId : Nat) : List Nat → Bool
  | [] => true
  | i :: rest =>
    let charCode := typeId % 256
    if !isValidTypeIdCharCode charCode && (charCode ≠ 0 || i = 0) then false
    else isValidTypeIdGo (typeId / 256) rest

/-- Source `isValidTypeId`. -/
def isValidTypeId (typeId : Nat) : Bool := isValidTypeIdGo typeId typeIdIndices

/-- The decoded form of an invalid id: the string `"????"`. -/
def quadQuestion : List Nat := [63, 63, 63, 63]

/-- Loop of `stringifyTypeId` over the remaining loop indices: pushes each
valid byte's character, skips zero bytes in positions 1–3, and bails to
`"????"` on anything else. -/
def stringifyTypeIdGo (typeId : Nat) (chars : List Nat) : List Nat → List Nat
  | [] => chars
  | i :: rest =>
    let charCode := typeId % 256
    if isValidTypeIdCharCode charCode then
      stringifyTypeIdGo (typeId / 256) (chars ++ [charCode]) rest
    else if charCode ≠ 0 || i = 0 then quadQuestion
    else stringifyTypeIdGo (typeId / 256) chars rest

/-- Source `stringifyTypeId`. -/
def stringifyTypeId (typeId : Nat) : List Nat := stringifyTypeIdGo typeId [] typeIdIndices

/-- Little-endian byte `i` of an encoding. -/
def typeIdByte (e i : Nat) : Nat := e / 256 ^ i % 256

/-- Characterisation of the encodings the code's codec accepts: byte 0 must be
a valid character and each of bytes 1–3 must be a valid character or zero
(zero bytes may occur anywhere after byte 0). -/
def codeValidTypeId (e : Nat) : Bool :=
  isValidTypeIdCharCode (typeIdByte e 0) &&
  (isValidTypeIdCharCode (typeIdByte e 1) || typeIdByte e 1 = 0) &&
  (isValidTypeIdCharCode (typeIdByte e 2) || typeIdByte e 2 = 0) &&
  (isValidTypeIdCharCode (typeIdByte e 3) || typeIdByte e 3 = 0)

/-- Validity in the words of the claim: every byte a valid character, except
that zero bytes are permitted only as trailing bytes after the first.
Stated from the spec's words for comparison against the code's codec. -/
def specValidTypeId (e : Nat) : Bool :=
  isValidTypeIdCharCode (typeIdByte e 0) &&
  ((isValidTypeIdCharCode (typeIdByte e 1) &&
    isValidTypeIdCharCode (typeIdByte e 2) &&
    isValidTypeIdCharCode (typeIdByte e 3)) ||
   (isValidTypeIdCharCode (typeIdByte e 1) &&
    isValidTypeIdCharCode (typeIdByte e 2) && typeIdByte e 3 = 0) ||
   (isValidTypeIdCharCode (typeIdByte e 1) && typeIdByte e 2 = 0 &&
    typeIdByte e 3 = 0) ||
   (typeIdByte e 1 = 0 && typeIdByte e 2 = 0 && typeIdByte e 3 = 0))

/-- Little-endian byte packing of a code-unit list, the closed form of
`genTypeId`'s accumulator. -/
def packSum : List Nat → Nat
  | [] => 0
  | c :: rest => c + 256 * packSum rest

/-! ### The shared buffer and its typed views -/

/-- The shared buffer as seen through the source's three typed-array views
(see the module comment for why the aliasing views are modelled as separate
maps).  `byteLength` is the buffer's allocation size; view `k` has
`byteLength / k`-element length, reads out of range yield the `0`-like
`undefined` and writes out of range are dropped, as for JS typed arrays. -/
structure BufferState where
  byteLength : Nat
  u16 : Nat → Nat
  i32 : Nat → Int
  f64 : Nat → Rat

def u16len (st : BufferState) : Nat := st.byteLength / 2

def i32len (st : BufferState) : Nat := st.byteLength / 4

def f64len (st : BufferState) : Nat := st.byteLength / 8

/-- Read of `uint16array[i]` (out of range: `undefined`, coercing like 0). -/
def u16read (st : BufferState) (i : Nat) : Nat :=
  if i < u16len st then st.u16 i else 0

/-- Store to `uint16array[i]`; JS coerces the stored value to 16 bits. -/
def u16write (st : BufferState) (i v : Nat) : BufferState :=
  if i < u16len st then
    { st with u16 := fun j => if j = i then v % 65536 else st.u16 j }
  else st

/-- Read of `int32array[i]` (out of range: `undefined`, coercing like 0). -/
def i32read (st : BufferState) (i : Nat) : Int :=
  if i < i32len st then st.i32 i else 0

/-- Read of `int32array[i]` keeping the out-of-range `undefined` observable. -/
def i32readOpt (st : BufferState) (i : Nat) : Option Int :=
  if i < i32len st then some (st.i32 i) else none

/-- Store to `int32array[i]`; JS coerces the stored value by `ToInt32`. -/
def i32write (st : BufferState) (i : Nat) (v : Int) : BufferState :=
  if i < i32len st then
    { st with i32 := fun j => if j = i then int32Wrap v else st.i32 j }
  else st

/-- Read of `float64array[i]`. -/
def f64read (st : BufferState) (i : Nat) : Rat :=
  if i < f64len st then st.f64 i else 0

/-- Store to `float64array[i]`. -/
def f64write (st : BufferState) (i : Nat) (v : Rat) : BufferState :=
  if i < f64len st then
    { st with f64 := fun j => if j = i then v else st.f64 j }
  else st

/-! ### Property schema (structProp layout computation) -/

inductive StructPropType where
  | string
  | number
  | boolean
  | int32
deriving DecidableEq, Repr

/-- Source `PropDef`. -/
structure PropDef where
  propNum : Nat
  name : String
  type : StructPropType
  byteOffset : Nat
  offset : Nat
  byteSize : Nat
  allowUndefined : Bool
deriving DecidableEq, Repr

/-- The `structProp` decorator's placement arithmetic: given the running
`constructor.size`, produce `(byteOffset, offset, byteSize)` for one
property.  Mirrors the `if` chain on the property type, including the
`byteOffset += byteOffset % k` adjustment. -/
def structPropLayout (size : Nat) : StructPropType → Nat × Nat × Nat
  | .string =>
    let byteOffset := size + size % 2
    (byteOffset, byteOffset / 2, (255 + 1) * 2)
  | .int32 =>
    let byteOffset := size + size % 4
    (byteOffset, byteOffset / 4, 4)
  | .boolean =>
    let byteOffset := size + size % 4
    (byteOffset, byteOffset / 4, 4)
  | .number =>
    let byteOffset := size + size % 8
    (byteOffset, byteOffset / 8, 8)

/-- Static per-type state built up by successive `structProp` decorators:
the ordered `propDefs` and the running `constructor.size`. -/
structure LayoutState where
  propDefs : List PropDef
  size : Nat
deriving Repr

/-- One `structProp(type, options)` application: appends the `PropDef` with
`propNum = propDefs.length` and advances `size` to `byteOffset + byteSize`. -/
def addStructProp (acc : LayoutState) (p : String × StructPropType × Bool) : LayoutState :=
  let (byteOffset, offset, byteSize) := structPropLayout acc.size p.2.1
  { propDefs := acc.propDefs ++
      [{ propNum := acc.propDefs.length, name := p.1, type := p.2.1,
         byteOffset := byteOffset, offset := offset, byteSize := byteSize,
         allowUndefined := p.2.2 }],
    size := byteOffset + byteSize }

/-- The full layout of a concrete `BufferStruct` type declared by a sequence
of `structProp` decorators, starting from the 40-byte header
(`static size = 10 * 4`). -/
def computeLayout (props : List (String × StructPropType × Bool)) : LayoutState :=
  props.foldl addStructProp { propDefs := [], size := 10 * 4 }

/-- Alignment each property type's slot requires: 2 for `string`, 4 for
`int32`/`boolean`, 8 for `number`. -/
def alignOf : StructPropType → Nat
  | .string => 2
  | .int32 => 4
  | .boolean => 4
  | .number => 8

/-! ### JS values crossing the property getters/setters -/

/-- A JS scalar reaching a struct property accessor.  Strings are lists of
UTF-16 code units; numbers are exact rationals (see module comment). -/
inductive JSVal where
  | num (q : Rat)
  | str (s : List Nat)
  | bool (b : Bool)
  | undefValue
deriving DecidableEq, Repr

/-- Runtime type test matching the declared property type (the well-typed
writes every claim quantifies over; JS coercions on mismatched runtime types
are outside the model and excluded by hypothesis in every theorem). -/
def valueHasType : JSVal → StructPropType → Bool
  | .str _, .string => true
  | .num _, .number => true
  | .num _, .int32 => true
  | .bool _, .boolean => true
  | _, _ => false

/-! ### BufferStruct header operations -/

namespace BufferStruct

/-- Header word indices (`TYPEID_INT32_INDEX` … `UNDEFINED_INT32_INDEX`). -/
def TYPEID_INT32_INDEX : Nat := 0

def NOTIFY_INT32_INDEX : Nat := 1

def LOCK_INT32_INDEX : Nat := 2

def DIRTY_INT32_INDEX : Nat := 6

def UNDEFINED_INT32_INDEX : Nat := 8

def ID_FLOAT64_INDEX : Nat := 2

/-- Source `BufferStruct.setDirty`. -/
def setDirty (st : BufferState) (propIndex : Nat) : BufferState :=
  let dirtyWordOffset := propIndex / 32
  let dirtyBitOffset := propIndex - dirtyWordOffset * 32
  i32write st (DIRTY_INT32_INDEX + dirtyWordOffset)
    (jsOr (i32read st (DIRTY_INT32_INDEX + dirtyWordOffset)) (jsShl 1 dirtyBitOffset))

/-- Source `BufferStruct.resetDirty`: zeros the notify word and both dirty
words. -/
def resetDirty (st : BufferState) : BufferState :=
  let st := i32write st NOTIFY_INT32_INDEX 0
  let st := i32write st DIRTY_INT32_INDEX 0
  i32write st (DIRTY_INT32_INDEX + 1) 0

/-- Source `BufferStruct.isDirty`: with an argument, tests that property's
bit; without, tests whether either dirty word is truthy. -/
def isDirty (st : BufferState) : Option Nat → Bool
  | some propIndex =>
    let dirtyWordOffset := propIndex / 32
    let dirtyBitOffset := propIndex - dirtyWordOffset * 32
    decide (jsAnd (i32read st (DIRTY_INT32_INDEX + dirtyWordOffset))
      (jsShl 1 dirtyBitOffset) ≠ 0)
  | none =>
    decide (i32read st DIRTY_INT32_INDEX ≠ 0 ∨ i32read st (DIRTY_INT32_INDEX + 1) ≠ 0)

/-- Source `BufferStruct.setUndefined`. -/
def setUndefined (st : BufferState) (propIndex : Nat) (value : Bool) : BufferState :=
  let undefWordOffset := propIndex / 32
  let undefBitOffset := propIndex - undefWordOffset * 32
  if value then
    i32write st (UNDEFINED_INT32_INDEX + undefWordOffset)
      (jsOr (i32read st (UNDEFINED_INT32_INDEX + undefWordOffset)) (jsShl 1 undefBitOffset))
  else
    i32write st (UNDEFINED_INT32_INDEX + undefWordOffset)
      (jsAnd (i32read st (UNDEFINED_INT32_INDEX + undefWordOffset))
        (jsNot (jsShl 1 undefBitOffset)))

/-- Source `BufferStruct.isUndefined`. -/
def isUndefined (st : BufferState) (propIndex : Nat) : Bool :=
  let undefWordOffset := propIndex / 32
  let undefBitOffset := propIndex - undefWordOffset * 32
  decide (jsAnd (i32read st (UNDEFINED_INT32_INDEX + undefWordOffset))
    (jsShl 1 undefBitOffset) ≠ 0)

/-- Source `get notifyValue`: atomic load of the notify word. -/
def notifyValue (st : BufferState) : Int := i32read st NOTIFY_INT32_INDEX

/-- Atomic load of the lock word (`get isLocked` tests it against 0). -/
def lockWord (st : BufferState) : Int := i32read st LOCK_INT32_INDEX

end BufferStruct

/-! ### Property descriptor get/set (structProp closures) -/

inductive GetError where
  | stringTooLong
deriving DecidableEq, Repr

/-- Source `descriptor.get` for a property: returns `undefined` for an undefined
nullable property, otherwise decodes the slot for the declared type.  The
string branch throws when the stored length word exceeds 255 ("this should
never happen because we truncate the string when setting it").  The optional
`bufferToProp` transform defaults to the identity and is not modelled. -/
def structPropGet (pd : PropDef) (st : BufferState) : Except GetError JSVal :=
  if pd.allowUndefined && BufferStruct.isUndefined st pd.propNum then .ok .undefValue
  else
    match pd.type with
    | .string =>
      let length := u16read st pd.offset
      if length = 0 then .ok (.str [])
      else if length > 255 then .error .stringTooLong
      else .ok (.str ((List.range length).map fun k => u16read st (pd.offset + 1 + k)))
    | .int32 => .ok (.num ((i32read st pd.offset : Int) : Rat))
    | .boolean => .ok (.bool (decide (i32read st pd.offset ≠ 0)))
    | .number => .ok (.num (f64read st pd.offset))

/-- The string setter's copy loop: stores the code units at consecutive
uint16 indices (`charIndex` walking the truncated string). -/
def writeUnits (st : BufferState) (i : Nat) : List Nat → BufferState
  | [] => st
  | u :: rest => writeUnits (u16write st i u) (i + 1) rest

/-- The typed tail of `descriptor.set` (after the `allowUndefined` handling):
the `valueIsType(...)` dispatch on the declared type, each branch skipping
the write when the value strictly equals the current value (read through the
getter) and otherwise setting the dirty bit and encoding the value.  Strings
over 255 code units are truncated to 255 (with a logged warning, not
modelled).  Values whose runtime type does not match the declared type
engage JS coercions outside the model and are excluded by hypothesis in
every theorem. -/
def structPropSetPayload (pd : PropDef) (st : BufferState) (value : JSVal) :
    Except GetError BufferState :=
  match pd.type with
  | .string => do
    let cur ← structPropGet pd st
    match value with
    | .str s =>
      if JSVal.str s = cur then .ok st
      else
        let st := BufferStruct.setDirty st pd.propNum
        let length := if s.length > 255 then 255 else s.length
        let st := u16write st pd.offset length
        .ok (writeUnits st (pd.offset + 1) (s.take length))
    | _ => .ok st
  | .int32 => do
    let cur ← structPropGet pd st
    match value with
    | .num q =>
      if JSVal.num q = cur then .ok st
      else .ok (i32write (BufferStruct.setDirty st pd.propNum) pd.offset (jsToInt32 q))
    | _ => .ok st
  | .boolean => do
    let cur ← structPropGet pd st
    match value with
    | .bool b =>
      if JSVal.bool b = cur then .ok st
      else .ok (i32write (BufferStruct.setDirty st pd.propNum) pd.offset (if b then 1 else 0))
    | _ => .ok st
  | .number => do
    let cur ← structPropGet pd st
    match value with
    | .num q =>
      if JSVal.num q = cur then .ok st
      else .ok (f64write (BufferStruct.setDirty st pd.propNum) pd.offset q)
    | _ => .ok st

/-- Source `descriptor.set` for a property: first the `allowUndefined` handling
(writing `undefined` when already undefined is a no-op; any transition
to/from undefined sets the dirty bit and flips the undefined bit), then the
typed payload write.  The optional `propToBuffer` transform defaults to the
identity and is not modelled. -/
def structPropSet (pd : PropDef) (st0 : BufferState) (value : JSVal) :
    Except GetError BufferState :=
  if pd.allowUndefined then
    let isU := BufferStruct.isUndefined st0 pd.propNum
    if value = JSVal.undefValue then
      if isU then .ok st0
      else .ok (BufferStruct.setUndefined (BufferStruct.setDirty st0 pd.propNum)
        pd.propNum true)
    else
      let st1 := if isU then
        BufferStruct.setUndefined (BufferStruct.setDirty st0 pd.propNum) pd.propNum false
      else st0
      structPropSetPayload pd st1 value
  else structPropSetPayload pd st0 value

/-! ### BufferStruct construction -/

inductive ConstructError where
  /-- A typed-array view over a buffer whose byte length is not a multiple of
  the element size throws a `RangeError` in JS. -/
  | viewRangeError
  /-- The existing buffer's type-id word differs from the concrete type's
  `typeId` ("BufferStruct: TypeId mismatch"). -/
  | typeIdMismatch
deriving DecidableEq, Repr

/-- The `BufferStruct` constructor with no pre-existing buffer: allocates
`Math.ceil(size / 8) * 8` zeroed bytes, stamps the type id, stores the
unique id minted by the router, and marks every `allowUndefined` property
undefined. -/
def constructFresh (typeId : Int) (uniqueId : Rat) (defs : List PropDef)
    (size : Nat) : BufferState :=
  let st : BufferState :=
    { byteLength := (size + 7) / 8 * 8, u16 := fun _ => 0, i32 := fun _ => 0,
      f64 := fun _ => 0 }
  let st := i32write st BufferStruct.TYPEID_INT32_INDEX typeId
  let st := f64write st BufferStruct.ID_FLOAT64_INDEX uniqueId
  defs.foldl
    (fun acc pd =>
      if pd.allowUndefined then BufferStruct.setUndefined acc pd.propNum true else acc)
    st

/-- The `BufferStruct` constructor over an existing buffer.  The constructor
first builds the three typed views (each throwing a `RangeError` when the
byte length is not a multiple of its element size) and then verifies the
type-id word (an out-of-range read is `undefined` and never equals the
numeric `typeId`); the buffer contents are never written. -/
def constructExisting (typeId : Int) (buffer : BufferState) :
    Except ConstructError BufferState :=
  if buffer.byteLength % 2 ≠ 0 then .error .viewRangeError
  else if buffer.byteLength % 4 ≠ 0 then .error .viewRangeError
  else if buffer.byteLength % 8 ≠ 0 then .error .viewRangeError
  else if i32readOpt buffer BufferStruct.TYPEID_INT32_INDEX ≠ some typeId then
    .error .typeIdMismatch
  else .ok buffer

/-! ### Lock protocol (uncontended path)

`lock` / `lockAsync` acquire by `compareExchange(lock, 0, lockId)`; on
contention they park on the lock word until another worker changes it, which
has no single-threaded denotation, so the model returns `none` there.  On
acquisition the callback runs inside a `try`/`finally` whose finaliser
stores 0 to the lock word and notifies its waiters, for normal returns and
exceptions alike; the callback's outcome (result or rethrown exception) is
then propagated.  The returned `Bool` records that `Atomics.notify` ran on
the lock word. -/

/-- Source `BufferStruct.lock` on an uncontended lock word. -/
def lockUncontended {ε α : Type} (lockId : Int) (st : BufferState)
    (callback : BufferState → Except ε α × BufferState) :
    Option (Except ε α × BufferState × Bool) :=
  if BufferStruct.lockWord st ≠ 0 then none
  else
    let stHeld := i32write st BufferStruct.LOCK_INT32_INDEX lockId
    let out := callback stHeld
    let stReleased := i32write out.2 BufferStruct.LOCK_INT32_INDEX 0
    some (out.1, stReleased, true)

/-- Source `BufferStruct.lockAsync` on an uncontended lock word: same
acquire/finally structure, parking with `waitAsync` instead of `wait`. -/
def lockAsyncUncontended {ε α : Type} (lockId : Int) (st : BufferState)
    (callback : BufferState → Except ε α × BufferState) :
    Option (Except ε α × BufferState × Bool) :=
  if BufferStruct.lockWord st ≠ 0 then none
  else
    let stHeld := i32write st BufferStruct.LOCK_INT32_INDEX lockId
    let out := callback stHeld
    let stReleased := i32write out.2 BufferStruct.LOCK_INT32_INDEX 0
    some (out.1, stReleased, true)

/-! ### SharedObject mutation cycle -/

namespace SharedObject

/-- The in-worker side of a `SharedObject`: the underlying struct's buffer,
the cached property map `curProps`, and the staged mutation set (property
names in insertion order). -/
structure SOState where
  struct : BufferState
  curProps : List (String × JSVal)
  mutations : List String

/-- JS object read `curProps[key]`: `undefined` when the key is absent. -/
def lookupProp (props : List (String × JSVal)) (key : String) : JSVal :=
  match props.find? (fun p => p.1 == key) with
  | some p => p.2
  | none => .undefValue

/-- JS object write `curProps[key] = v`. -/
def storeProp (props : List (String × JSVal)) (key : String) (v : JSVal) :
    List (String × JSVal) :=
  match props.find? (fun p => p.1 == key) with
  | some _ => props.map fun p => if p.1 == key then (key, v) else p
  | none => props ++ [(key, v)]

/-- Loop body of `processDirtyProperties`: for each `propDef` (with its
`forEach` index) whose dirty bit is set, drop any staged local mutation for
that name and adopt the buffer value into `curProps`.  The
`onPropertyChange` user hook fired here is observable only to user code and
is not modelled. -/
def processDirtyGo (struct : BufferState) :
    List PropDef → Nat → List String → List (String × JSVal) →
    Except GetError (List String × List (String × JSVal))
  | [], _, mutations, curProps => .ok (mutations, curProps)
  | propDef :: rest, index, mutations, curProps =>
    if BufferStruct.isDirty struct (some index) then do
      let v ← structPropGet propDef struct
      processDirtyGo struct rest (index + 1) (mutations.erase propDef.name)
        (storeProp curProps propDef.name v)
    else processDirtyGo struct rest (index + 1) mutations curProps

/-- Source `SharedObject.processDirtyProperties` (assumes the lock is held):
adopt every dirty property from the buffer, then `resetDirty()`. -/
def processDirtyProperties (defs : List PropDef) (so : SOState) :
    Except GetError SOState :=
  match processDirtyGo so.struct defs 0 so.mutations so.curProps with
  | .error e => .error e
  | .ok (mutations, curProps) =>
    .ok { struct := BufferStruct.resetDirty so.struct, curProps := curProps,
          mutations := mutations }

/-- The flush loop of `_executeMutations` step b: for each staged name, read
the (unused) old value through the getter, then write `curProps[key]` to the
buffer through the property setter.  Names that match no struct property
write a plain object field with no buffer effect. -/
def flushGo (defs : List PropDef) (curProps : List (String × JSVal)) :
    List String → BufferState → Except GetError BufferState
  | [], st => .ok st
  | key :: rest, st =>
    match defs.find? (fun pd => pd.name == key) with
    | none => flushGo defs curProps rest st
    | some pd => do
      let _ ← structPropGet pd st
      let st ← structPropSet pd st (lookupProp curProps key)
      flushGo defs curProps rest st

/-- Step b of `_executeMutations`: capture and clear `this.mutations`, then
flush every staged property to the buffer. -/
def flushMutations (defs : List PropDef) (so : SOState) : Except GetError SOState :=
  match flushGo defs so.curProps so.mutations so.struct with
  | .error e => .error e
  | .ok st => .ok { struct := st, curProps := so.curProps, mutations := [] }

/-- Source `SharedObject._executeMutations` (on a live object): step a adopts
peer writes when the notify word is not ours and something is dirty; step b
flushes the staged local mutations; then, if any dirty bit is set,
`notify(myWorkerId)` stores our worker id to the notify word (waking
waiters) and the subsequent `waitAsync` expects `myWorkerId`, else the
current notify word is used unchanged.  Returns the final state, the
`expectedNotifyValue` passed to `waitAsync`, and whether `notify` ran. -/
def executeMutations (defs : List PropDef) (workerId : Int) (so : SOState) :
    Except GetError (SOState × Int × Bool) := do
  let so ←
    if BufferStruct.notifyValue so.struct ≠ workerId &&
        BufferStruct.isDirty so.struct none then
      processDirtyProperties defs so
    else .ok so
  let so ← flushMutations defs so
  let expectedNotifyValue := BufferStruct.notifyValue so.struct
  if BufferStruct.isDirty so.struct none then
    let struct := i32write so.struct BufferStruct.NOTIFY_INT32_INDEX workerId
    .ok ({ so with struct := struct }, workerId, true)
  else .ok (so, expectedNotifyValue, false)

end SharedObject

/-! ### ThreadX unique-id generator -/

namespace ThreadX

/-- The constructor's seeding of the id counter:
`nextUniqueId = workerId * 10000000000000 + 1`. -/
def firstUniqueId (workerId : Nat) : Nat := workerId * 10000000000000 + 1

/-- Source `ThreadX.generateUniqueId`: `return this.nextUniqueId++` — yields
the current counter and the post-incremented counter. -/
def generateUniqueId (nextUniqueId : Nat) : Nat × Nat :=
  (nextUniqueId, nextUniqueId + 1)

/-- The counter after `n` calls to `generateUniqueId` on a router seeded with
`workerId`. -/
def counterAfter (workerId : Nat) : Nat → Nat
  | 0 => firstUniqueId workerId
  | n + 1 => (generateUniqueId (counterAfter workerId n)).2

/-- The id returned by the `(n+1)`-st call to `generateUniqueId` (0-indexed
`n`). -/
def idAt (workerId n : Nat) : Nat := (generateUniqueId (counterAfter workerId n)).1

end ThreadX

/-! ### Elementary view lemmas -/

theorem u16write_byteLength (st : BufferState) (i v : Nat) :
    (u16write st i v).byteLength = st.byteLength := by
  unfold u16write; split <;> rfl

theorem i32write_byteLength (st : BufferState) (i : Nat) (v : Int) :
    (i32write st i v).byteLength = st.byteLength := by
  unfold i32write; split <;> rfl

theorem f64write_byteLength (st : BufferState) (i : Nat) (v : Rat) :
    (f64write st i v).byteLength = st.byteLength := by
  unfold f64write; split <;> rfl

theorem i32read_u16write (st : BufferState) (i v j : Nat) :
    i32read (u16write st i v) j = i32read st j := by
  unfold i32read u16write i32len; split <;> rfl

theorem i32read_f64write (st : BufferState) (i : Nat) (v : Rat) (j : Nat) :
    i32read (f64write st i v) j = i32read st j := by
  unfold i32read f64write i32len; split <;> rfl

theorem u16read_i32write (st : BufferState) (i : Nat) (v : Int) (j : Nat) :
    u16read (i32write st i v) j = u16read st j := by
  unfold u16read i32write u16len; split <;> rfl

theorem u16read_f64write (st : BufferState) (i : Nat) (v : Rat) (j : Nat) :
    u16read (f64write st i v) j = u16read st j := by
  unfold u16read f64write u16len; split <;> rfl

theorem f64read_u16write (st : BufferState) (i v j : Nat) :
    f64read (u16write st i v) j = f64read st j := by
  unfold f64read u16write f64len; split <;> rfl

theorem f64read_i32write (st : BufferState) (i : Nat) (v : Int) (j : Nat) :
    f64read (i32write st i v) j = f64read st j := by
  unfold f64read i32write f64len; split <;> rfl

theorem i32read_i32write_self (st : BufferState) (i : Nat) (v : Int)
    (h : i < i32len st) : i32read (i32write st i v) i = int32Wrap v := by
  unfold i32read i32write
  simp [i32len] at h ⊢
  simp [i32len, h]

theorem i32read_i32write_ne (st : BufferState) (i : Nat) (v : Int) (j : Nat)
    (h : j ≠ i) : i32read (i32write st i v) j = i32read st j := by
  unfold i32read i32write i32len
  by_cases hi : i < st.byteLength / 4
  · simp [hi, h]
  · simp [hi]

theorem u16read_u16write_self (st : BufferState) (i v : Nat)
    (h : i < u16len st) : u16read (u16write st i v) i = v % 65536 := by
  unfold u16read u16write
  simp [u16len] at h ⊢
  simp [u16len, h]

theorem u16read_u16write_ne (st : BufferState) (i v j : Nat)
    (h : j ≠ i) : u16read (u16write st i v) j = u16read st j := by
  unfold u16read u16write u16len
  by_cases hi : i < st.byteLength / 2
  · simp [hi, h]
  · simp [hi]

theorem f64read_f64write_self (st : BufferState) (i : Nat) (v : Rat)
    (h : i < f64len st) : f64read (f64write st i v) i = v := by
  unfold f64read f64write
  simp [f64len] at h ⊢
  simp [f64len, h]

theorem f64read_f64write_ne (st : BufferState) (i : Nat) (v : Rat) (j : Nat)
    (h : j ≠ i) : f64read (f64write st i v) j = f64read st j := by
  unfold f64read f64write f64len
  by_cases hi : i < st.byteLength / 8
  · simp [hi, h]
  · simp [hi]

/-! ### 32-bit arithmetic lemmas -/

theorem u32ToI32_lt (n : Nat) (h : n < 4294967296) : u32ToI32 n < 2147483648 := by
  unfold u32ToI32; split <;> omega

theorem toU32_u32ToI32 (n : Nat) (h : n < 4294967296) : toU32 (u32ToI32 n) = n := by
  unfold toU32 u32ToI32
  split <;> omega

theorem u32ToI32_eq_zero_iff (n : Nat) (h : n < 4294967296) :
    u32ToI32 n = 0 ↔ n = 0 := by
  unfold u32ToI32; split <;> omega

theorem int32Wrap_u32ToI32 (n : Nat) (h : n < 4294967296) :
    int32Wrap (u32ToI32 n) = u32ToI32 n := by
  unfold int32Wrap
  rw [toU32_u32ToI32 n h]

theorem int32Wrap_zero : int32Wrap 0 = 0 := by decide

theorem int32Wrap_of_range (x : Int) (h1 : -2147483648 ≤ x) (h2 : x < 2147483648) :
    int32Wrap x = x := by
  unfold int32Wrap toU32 u32ToI32
  have h4 : (4294967296 : Int) ≠ 0 := by decide
  have hmod : 0 ≤ x % 4294967296 ∧ x % 4294967296 < 4294967296 :=
    ⟨Int.emod_nonneg x h4, Int.emod_lt_of_pos x (by decide)⟩
  rcases Int.emod_emod_of_dvd x (dvd_refl 4294967296) with _
  by_cases hx : 0 ≤ x
  · have : x % 4294967296 = x := Int.emod_eq_of_lt hx (by omega)
    simp [this]
    omega
  · have : x % 4294967296 = x + 4294967296 := by
      have := Int.add_mul_emod_self_left (a := x) (b := 4294967296) (c := 1)
      rw [mul_one] at this
      rw [← this]
      exact Int.emod_eq_of_lt (by omega) (by omega)
    simp [this]
    omega

theorem toU32_lt (x : Int) : toU32 x < 4294967296 := by
  unfold toU32
  have h4 : (4294967296 : Int) ≠ 0 := by decide
  have := Int.emod_lt_of_pos x (b := 4294967296) (by decide)
  have := Int.emod_nonneg x h4
  omega

theorem toU32_int32Wrap (x : Int) : toU32 (int32Wrap x) = toU32 x := by
  unfold int32Wrap
  rw [toU32_u32ToI32 _ (toU32_lt x)]

/-! ### Bit lemmas for the dirty/undefined masks -/

/-- Or-test lemma `(a ||| b) &&& b = b`: the or'd-in mask always tests back positive. -/
theorem lor_land_self (a b : Nat) : (a ||| b) &&& b = b := by
  apply Nat.eq_of_testBit_eq
  intro i
  rw [Nat.testBit_land, Nat.testBit_lor]
  cases a.testBit i <;> cases b.testBit i <;> rfl

theorem lor_ne_zero_right (a b : Nat) (hb : b ≠ 0) : a ||| b ≠ 0 := by
  intro h
  apply hb
  apply Nat.eq_of_testBit_eq
  intro i
  have hcong := congrArg (fun n => Nat.testBit n i) h
  simp only [Nat.testBit_lor, Nat.zero_testBit] at hcong ⊢
  cases hbi : b.testBit i
  · rfl
  · rw [hbi] at hcong
    simp at hcong

/-- The unsigned residue of the JS shift `1 << s`: the power of two at the
shift count taken mod 32. -/
theorem toU32_jsShl_one (s : Nat) : toU32 (jsShl 1 s) = 2 ^ (s % 32) := by
  unfold jsShl
  have h1 : toU32 1 = 1 := by decide
  rw [h1]
  have hs : s % 32 < 32 := Nat.mod_lt s (by norm_num)
  have hp : (1 : Nat) <<< (s % 32) = 2 ^ (s % 32) := by
    rw [Nat.shiftLeft_eq, one_mul]
  rw [hp]
  have hlt : 2 ^ (s % 32) < 4294967296 := by
    calc 2 ^ (s % 32) < 2 ^ 32 := Nat.pow_lt_pow_right (by norm_num) hs
      _ = 4294967296 := by norm_num
  rw [Nat.mod_eq_of_lt hlt, toU32_u32ToI32 _ hlt]

theorem jsShl_one_ne_zero (s : Nat) : jsShl 1 s ≠ 0 := by
  intro h
  have hc := congrArg toU32 h
  rw [toU32_jsShl_one] at hc
  have h0 : toU32 0 = 0 := by decide
  rw [h0] at hc
  exact absurd hc (Nat.pos_iff_ne_zero.mp (Nat.pos_pow_of_pos _ (by norm_num)))

/-- Testing the freshly or'd-in dirty/undefined bit succeeds. -/
theorem jsAnd_jsOr_shl (a : Int) (s : Nat) :
    jsAnd (jsOr a (jsShl 1 s)) (jsShl 1 s) = jsShl 1 s := by
  unfold jsAnd jsOr
  have hb : toU32 (jsShl 1 s) = 2 ^ (s % 32) := toU32_jsShl_one s
  have hlt : 2 ^ (s % 32) < 4294967296 := by
    calc 2 ^ (s % 32) < 2 ^ 32 := Nat.pow_lt_pow_right (by norm_num) (Nat.mod_lt s (by norm_num))
      _ = 4294967296 := by norm_num
  have hor : toU32 a ||| 2 ^ (s % 32) < 4294967296 := by
    have h32 : (4294967296 : Nat) = 2 ^ 32 := by norm_num
    rw [h32]
    exact Nat.or_lt_two_pow (by rw [← h32]; exact toU32_lt a) (by rw [← h32]; exact hlt)
  rw [hb, toU32_u32ToI32 _ hor, lor_land_self, ← hb]
  show int32Wrap (jsShl 1 s) = jsShl 1 s
  unfold jsShl
  exact int32Wrap_u32ToI32 _ (Nat.mod_lt _ (by norm_num))

/-- The or'd-in dirty/undefined bit makes the word non-zero. -/
theorem jsOr_shl_ne_zero (a : Int) (s : Nat) : jsOr a (jsShl 1 s) ≠ 0 := by
  unfold jsOr
  have hb : toU32 (jsShl 1 s) = 2 ^ (s % 32) := toU32_jsShl_one s
  rw [hb]
  have hlt : 2 ^ (s % 32) < 4294967296 := by
    calc 2 ^ (s % 32) < 2 ^ 32 := Nat.pow_lt_pow_right (by norm_num) (Nat.mod_lt s (by norm_num))
      _ = 4294967296 := by norm_num
  have hor : toU32 a ||| 2 ^ (s % 32) < 4294967296 := by
    have h32 : (4294967296 : Nat) = 2 ^ 32 := by norm_num
    rw [h32]
    exact Nat.or_lt_two_pow (by rw [← h32]; exact toU32_lt a) (by rw [← h32]; exact hlt)
  intro h
  rw [u32ToI32_eq_zero_iff _ hor] at h
  exact lor_ne_zero_right _ _ (Nat.pos_iff_ne_zero.mp (Nat.pos_pow_of_pos _ (by norm_num))) h

/-- The written dirty word (an int32 `x | (1 << b)` value) is unchanged by
the store's `ToInt32` coercion. -/
theorem int32Wrap_jsOr (a b : Int) : int32Wrap (jsOr a b) = jsOr a b := by
  unfold jsOr
  exact int32Wrap_u32ToI32 _ (by
    have h32 : (4294967296 : Nat) = 2 ^ 32 := by norm_num
    rw [h32]
    exact Nat.or_lt_two_pow (by rw [← h32]; exact toU32_lt a) (by rw [← h32]; exact toU32_lt b))

theorem int32Wrap_jsAnd (a b : Int) : int32Wrap (jsAnd a b) = jsAnd a b := by
  unfold jsAnd
  refine int32Wrap_u32ToI32 _ ?_
  have h1 := Nat.and_le_left (n := toU32 a) (m := toU32 b)
  have h2 := toU32_lt a
  omega

/-- JS `~x` complements the unsigned 32-bit residue. -/
theorem toU32_jsNot (x : Int) : toU32 (jsNot x) = 4294967295 - toU32 x := by
  unfold jsNot
  rw [toU32_int32Wrap]
  unfold toU32
  omega

/-- The cleared undefined bit tests back zero:
`(a & ~(1 << s)) & (1 << s) = 0`. -/
theorem jsAnd_jsNot_shl (a : Int) (s : Nat) :
    jsAnd (jsAnd a (jsNot (jsShl 1 s))) (jsShl 1 s) = 0 := by
  have hm : s % 32 < 32 := Nat.mod_lt s (by norm_num)
  set m := s % 32 with hmdef
  have hK : toU32 (jsNot (jsShl 1 s)) = 4294967295 - 2 ^ m := by
    rw [toU32_jsNot, toU32_jsShl_one]
  have hM : toU32 (jsShl 1 s) = 2 ^ m := toU32_jsShl_one s
  have hKbit : (4294967295 - 2 ^ m).testBit m = false := by
    have hx1 : 1 ≤ 2 ^ m := Nat.one_le_two_pow
    have hsplit : 2 ^ (m + 1) * 2 ^ (31 - m) = 4294967296 := by
      rw [← pow_add]
      have : m + 1 + (31 - m) = 32 := by omega
      rw [this]
      norm_num
    have hdecomp : 4294967295 - 2 ^ m = 2 ^ (m + 1) * (2 ^ (31 - m) - 1) + (2 ^ m - 1) := by
      have h2 : 2 ^ (m + 1) * (2 ^ (31 - m) - 1) + 2 ^ (m + 1) = 2 ^ (m + 1) * 2 ^ (31 - m) := by
        have h3 : (2 ^ (31 - m) - 1) + 1 = 2 ^ (31 - m) := by
          have := Nat.one_le_two_pow (n := 31 - m)
          omega
        calc 2 ^ (m + 1) * (2 ^ (31 - m) - 1) + 2 ^ (m + 1)
            = 2 ^ (m + 1) * ((2 ^ (31 - m) - 1) + 1) := by ring
          _ = 2 ^ (m + 1) * 2 ^ (31 - m) := by rw [h3]
      have hpow : 2 ^ (m + 1) = 2 * 2 ^ m := by ring
      omega
    rw [hdecomp]
    rw [Nat.testBit_mul_pow_two_add _ (by
      have : 2 ^ m < 2 ^ (m + 1) := Nat.pow_lt_pow_right (by norm_num) (by omega)
      omega) m]
    simp only [Nat.lt_succ_self, if_pos]
    exact Nat.testBit_eq_false_of_lt (by omega)
  unfold jsAnd
  have hinner : toU32 (u32ToI32 (toU32 a &&& toU32 (jsNot (jsShl 1 s)))) =
      toU32 a &&& toU32 (jsNot (jsShl 1 s)) := by
    refine toU32_u32ToI32 _ ?_
    have h1 := Nat.and_le_left (n := toU32 a) (m := toU32 (jsNot (jsShl 1 s)))
    have h2 := toU32_lt a
    omega
  rw [hinner, hK, hM]
  have hzero : (toU32 a &&& (4294967295 - 2 ^ m)) &&& 2 ^ m = 0 := by
    apply Nat.zero_of_testBit_eq_false
    intro j
    rw [Nat.testBit_land, Nat.testBit_land]
    by_cases hj : m = j
    · subst hj
      rw [hKbit]
      simp
    · rw [Nat.testBit_two_pow]
      simp [hj]
  rw [hzero]
  decide

/-! ### State-level dirty/undefined lemmas -/

theorem setDirty_byteLength (st : BufferState) (pn : Nat) :
    (BufferStruct.setDirty st pn).byteLength = st.byteLength := by
  unfold BufferStruct.setDirty
  exact i32write_byteLength _ _ _

theorem setUndefined_byteLength (st : BufferState) (pn : Nat) (v : Bool) :
    (BufferStruct.setUndefined st pn v).byteLength = st.byteLength := by
  unfold BufferStruct.setUndefined
  cases v <;> simp <;> exact i32write_byteLength _ _ _

theorem resetDirty_byteLength (st : BufferState) :
    (BufferStruct.resetDirty st).byteLength = st.byteLength := by
  unfold BufferStruct.resetDirty
  simp [i32write_byteLength]

theorem writeUnits_byteLength (us : List Nat) (st : BufferState) (i : Nat) :
    (writeUnits st i us).byteLength = st.byteLength := by
  induction us generalizing st i with
  | nil => rfl
  | cons u rest ih =>
    unfold writeUnits
    rw [ih, u16write_byteLength]

/-- The test `isDirty(propNum)` immediately after `setDirty(propNum)` is `true`
(whenever the dirty word lies inside the buffer). -/
theorem isDirty_some_setDirty (st : BufferState) (pn : Nat)
    (hb : 6 + pn / 32 < i32len st) :
    BufferStruct.isDirty (BufferStruct.setDirty st pn) (some pn) = true := by
  unfold BufferStruct.isDirty BufferStruct.setDirty BufferStruct.DIRTY_INT32_INDEX
  simp only
  rw [i32read_i32write_self _ _ _ (by
    rw [show i32len (st) = st.byteLength / 4 from rfl] at hb
    unfold i32len
    exact hb)]
  rw [int32Wrap_jsOr, jsAnd_jsOr_shl]
  simp [jsShl_one_ne_zero]

/-- The test `isDirty()` (no argument) immediately after `setDirty(propNum)` is `true`
for the mask-covered properties 0–63. -/
theorem isDirty_none_setDirty (st : BufferState) (pn : Nat)
    (hpn : pn < 64) (hb : 7 < i32len st) :
    BufferStruct.isDirty (BufferStruct.setDirty st pn) none = true := by
  unfold BufferStruct.isDirty BufferStruct.setDirty BufferStruct.DIRTY_INT32_INDEX
  simp only [decide_eq_true_eq]
  have hw : pn / 32 = 0 ∨ pn / 32 = 1 := by omega
  rcases hw with hw | hw
  · left
    rw [hw]
    simp only [Nat.add_zero]
    rw [i32read_i32write_self _ _ _ (by omega)]
    rw [int32Wrap_jsOr]
    exact jsOr_shl_ne_zero _ _
  · right
    rw [hw]
    rw [i32read_i32write_self _ _ _ (by omega)]
    rw [int32Wrap_jsOr]
    exact jsOr_shl_ne_zero _ _

theorem isDirty_u16write (st : BufferState) (i v : Nat) (x : Option Nat) :
    BufferStruct.isDirty (u16write st i v) x = BufferStruct.isDirty st x := by
  unfold BufferStruct.isDirty
  cases x <;> simp [i32read_u16write]

theorem isDirty_f64write (st : BufferState) (i : Nat) (v : Rat) (x : Option Nat) :
    BufferStruct.isDirty (f64write st i v) x = BufferStruct.isDirty st x := by
  unfold BufferStruct.isDirty
  cases x <;> simp [i32read_f64write]

theorem isDirty_some_i32write (st : BufferState) (i : Nat) (v : Int) (pn : Nat)
    (h : i ≠ 6 + pn / 32) :
    BufferStruct.isDirty (i32write st i v) (some pn) = BufferStruct.isDirty st (some pn) := by
  unfold BufferStruct.isDirty BufferStruct.DIRTY_INT32_INDEX
  simp only
  rw [i32read_i32write_ne _ _ _ _ (by omega)]

theorem isDirty_none_i32write (st : BufferState) (i : Nat) (v : Int)
    (h6 : i ≠ 6) (h7 : i ≠ 7) :
    BufferStruct.isDirty (i32write st i v) none = BufferStruct.isDirty st none := by
  unfold BufferStruct.isDirty BufferStruct.DIRTY_INT32_INDEX
  simp only
  rw [i32read_i32write_ne _ _ _ _ (by omega), i32read_i32write_ne _ _ _ _ (by omega)]

theorem isDirty_setUndefined (st : BufferState) (pn' : Nat) (b : Bool) (x : Option Nat)
    (hx : ∀ pn, x = some pn → 6 + pn / 32 ≠ 8 + pn' / 32) :
    BufferStruct.isDirty (BufferStruct.setUndefined st pn' b) x = BufferStruct.isDirty st x := by
  unfold BufferStruct.setUndefined BufferStruct.UNDEFINED_INT32_INDEX
  cases x with
  | none =>
    cases b <;> simp only [if_pos, if_neg, Bool.false_eq_true] <;>
      exact isDirty_none_i32write _ _ _ (by omega) (by omega)
  | some pn =>
    have := hx pn rfl
    cases b <;> simp only [if_pos, if_neg, Bool.false_eq_true] <;>
      exact isDirty_some_i32write _ _ _ _ (by omega)

theorem isUndefined_u16write (st : BufferState) (i v pn : Nat) :
    BufferStruct.isUndefined (u16write st i v) pn = BufferStruct.isUndefined st pn := by
  unfold BufferStruct.isUndefined
  simp [i32read_u16write]

theorem isUndefined_f64write (st : BufferState) (i : Nat) (v : Rat) (pn : Nat) :
    BufferStruct.isUndefined (f64write st i v) pn = BufferStruct.isUndefined st pn := by
  unfold BufferStruct.isUndefined
  simp [i32read_f64write]

theorem isUndefined_i32write (st : BufferState) (i : Nat) (v : Int) (pn : Nat)
    (h : i ≠ 8 + pn / 32) :
    BufferStruct.isUndefined (i32write st i v) pn = BufferStruct.isUndefined st pn := by
  unfold BufferStruct.isUndefined BufferStruct.UNDEFINED_INT32_INDEX
  simp only
  rw [i32read_i32write_ne _ _ _ _ (by omega)]

theorem isUndefined_setDirty (st : BufferState) (pn' pn : Nat)
    (h : 6 + pn' / 32 ≠ 8 + pn / 32) :
    BufferStruct.isUndefined (BufferStruct.setDirty st pn') pn =
      BufferStruct.isUndefined st pn := by
  unfold BufferStruct.setDirty BufferStruct.DIRTY_INT32_INDEX
  simp only
  exact isUndefined_i32write _ _ _ _ (by omega)

theorem isUndefined_setDirty_self (st : BufferState) (pn : Nat) :
    BufferStruct.isUndefined (BufferStruct.setDirty st pn) pn =
      BufferStruct.isUndefined st pn :=
  isUndefined_setDirty st pn pn (by omega)

theorem jsAnd_zero_left (b : Int) : jsAnd 0 b = 0 := by
  unfold jsAnd
  have h0 : toU32 0 = 0 := by decide
  rw [h0, Nat.zero_and]
  decide

/-- Clearing a property's undefined bit makes `isUndefined` `false`
(whenever the undefined word lies inside the buffer). -/
theorem isUndefined_setUndefined_false (st : BufferState) (pn : Nat)
    (hb : 8 + pn / 32 < i32len st) :
    BufferStruct.isUndefined (BufferStruct.setUndefined st pn false) pn = false := by
  unfold BufferStruct.isUndefined BufferStruct.setUndefined BufferStruct.UNDEFINED_INT32_INDEX
  simp only [Bool.false_eq_true, if_false]
  rw [i32read_i32write_self _ _ _ (by omega)]
  rw [int32Wrap_jsAnd, jsAnd_jsNot_shl]
  simp

/-- Setting a property's undefined bit makes `isUndefined` `true`. -/
theorem isUndefined_setUndefined_true (st : BufferState) (pn : Nat)
    (hb : 8 + pn / 32 < i32len st) :
    BufferStruct.isUndefined (BufferStruct.setUndefined st pn true) pn = true := by
  unfold BufferStruct.isUndefined BufferStruct.setUndefined BufferStruct.UNDEFINED_INT32_INDEX
  simp only [if_pos]
  rw [i32read_i32write_self _ _ _ (by omega)]
  rw [int32Wrap_jsOr, jsAnd_jsOr_shl]
  simp [jsShl_one_ne_zero]

/-- After `resetDirty()` no dirty bit remains and `isDirty()` is `false`. -/
theorem isDirty_resetDirty (st : BufferState) (x : Option Nat)
    (hb : 7 < i32len st)
    (hx : ∀ pn, x = some pn → pn < 64) :
    BufferStruct.isDirty (BufferStruct.resetDirty st) x = false := by
  unfold BufferStruct.resetDirty BufferStruct.isDirty BufferStruct.DIRTY_INT32_INDEX
    BufferStruct.NOTIFY_INT32_INDEX
  have hlen1 : i32len (i32write st 1 0) = i32len st := by
    unfold i32len
    rw [i32write_byteLength]
  have hlen2 : i32len (i32write (i32write st 1 0) 6 0) = i32len st := by
    unfold i32len
    rw [i32write_byteLength, i32write_byteLength]
  cases x with
  | none =>
    simp only [decide_eq_false_iff_not]
    push_neg
    constructor
    · rw [i32read_i32write_ne _ _ _ _ (by omega)]
      rw [i32read_i32write_self _ _ _ (by omega)]
      exact int32Wrap_zero
    · rw [i32read_i32write_self _ _ _ (by omega)]
      exact int32Wrap_zero
  | some pn =>
    have hpn := hx pn rfl
    simp only [decide_eq_false_iff_not]
    have hw : pn / 32 = 0 ∨ pn / 32 = 1 := by omega
    rcases hw with hw | hw <;> rw [hw]
    · simp only [Nat.add_zero]
      rw [i32read_i32write_ne _ _ _ _ (by omega)]
      rw [i32read_i32write_self _ _ _ (by omega)]
      rw [int32Wrap_zero]
      push_neg
      exact jsAnd_zero_left _
    · rw [i32read_i32write_self _ _ _ (by omega)]
      rw [int32Wrap_zero]
      push_neg
      exact jsAnd_zero_left _

/-! ### Claim C9: unique-id generator -/

/-- C9: the unique-id generator of a router seeded with `workerId` starts at
`workerId * 10^13 + 1`; `generateUniqueId` returns the current counter and
post-increments it; ids of the first `10^13 − 1` calls on routers with
distinct worker ids in `[1, 899]` are pairwise disjoint; and every such id
stays below `2^53` (so JS double arithmetic on it is exact). -/
theorem C9_unique_id_generator :
    (∀ w : Nat, ThreadX.counterAfter w 0 = w * 10000000000000 + 1) ∧
    (∀ c : Nat, ThreadX.generateUniqueId c = (c, c + 1)) ∧
    (∀ w n : Nat, ThreadX.idAt w n = w * 10000000000000 + 1 + n) ∧
    (∀ w1 w2 i j : Nat, 1 ≤ w1 → w1 ≤ 899 → 1 ≤ w2 → w2 ≤ 899 → w1 ≠ w2 →
      i < 10000000000000 - 1 → j < 10000000000000 - 1 →
      ThreadX.idAt w1 i ≠ ThreadX.idAt w2 j) ∧
    (∀ w n : Nat, w ≤ 899 → n < 10000000000000 - 1 →
      ThreadX.idAt w n < 9007199254740992) := by
  have hform : ∀ w n : Nat, ThreadX.idAt w n = w * 10000000000000 + 1 + n := by
    intro w n
    have hc : ∀ m : Nat, ThreadX.counterAfter w m = w * 10000000000000 + 1 + m := by
      intro m
      induction m with
      | zero => rfl
      | succ k ih =>
        unfold ThreadX.counterAfter ThreadX.generateUniqueId
        rw [ih]
        simp
        omega
    unfold ThreadX.idAt ThreadX.generateUniqueId
    exact hc n
  refine ⟨fun w => rfl, fun c => rfl, hform, ?_, ?_⟩
  · intro w1 w2 i j h1 h2 h3 h4 hne hi hj
    rw [hform, hform]
    omega
  · intro w n hw hn
    rw [hform]
    omega

/-- Witness for C9 at concrete worker ids 1 and 2. -/
theorem C9_unique_id_generator_witness :
    ThreadX.idAt 1 0 = 1 * 10000000000000 + 1 + 0 ∧
    ThreadX.idAt 1 0 ≠ ThreadX.idAt 2 0 ∧
    ThreadX.idAt 1 5 < 9007199254740992 :=
  ⟨C9_unique_id_generator.2.2.1 1 0,
   C9_unique_id_generator.2.2.2.1 1 2 0 0 (by omega) (by omega) (by omega)
     (by omega) (by omega) (by omega) (by omega),
   C9_unique_id_generator.2.2.2.2 1 5 (by omega) (by omega)⟩

/-! ### Claim C2: construction over an existing buffer -/

/-- An 8-byte buffer whose type-id word is 42. -/
def buf8 : BufferState :=
  { byteLength := 8, u16 := fun _ => 0, i32 := fun i => if i = 0 then 42 else 0,
    f64 := fun _ => 0 }

/-- A zeroed 40-byte buffer (type-id word 0). -/
def buf40 : BufferState :=
  { byteLength := 40, u16 := fun _ => 0, i32 := fun _ => 0, f64 := fun _ => 0 }

/-- C2 counterexample: constructing over an existing 8-byte buffer whose
type-id word matches succeeds, although the claim requires every buffer
shorter than 40 bytes to be rejected with a `TypeIdMismatch` error. -/
theorem C2_counterexample :
    constructExisting 42 buf8 = .ok buf8 ∧ buf8.byteLength = 8 ∧ buf8.byteLength < 40 :=
  ⟨rfl, rfl, by decide⟩

/-- C2 (amended): the constructor over an existing buffer enforces no 40-byte
minimum; a byte length that is not a multiple of 8 fails with the typed-view
`RangeError`, otherwise construction fails with `TypeIdMismatch` exactly when
the buffer's type-id word (`undefined` when the buffer is shorter than 4
bytes) differs from the concrete type's `typeId`, and on success the buffer
is returned unchanged. -/
theorem C2_construct_existing (typeId : Int) (buffer : BufferState) :
    (buffer.byteLength % 8 ≠ 0 →
      constructExisting typeId buffer = .error .viewRangeError) ∧
    (buffer.byteLength % 8 = 0 →
      i32readOpt buffer BufferStruct.TYPEID_INT32_INDEX ≠ some typeId →
      constructExisting typeId buffer = .error .typeIdMismatch) ∧
    (buffer.byteLength % 8 = 0 →
      i32readOpt buffer BufferStruct.TYPEID_INT32_INDEX = some typeId →
      constructExisting typeId buffer = .ok buffer) := by
  refine ⟨?_, ?_, ?_⟩
  · intro h8
    unfold constructExisting
    by_cases h2 : buffer.byteLength % 2 = 0
    · by_cases h4 : buffer.byteLength % 4 = 0
      · simp [h2, h4, h8]
      · simp [h2, h4]
    · simp [h2]
  · intro h8 hne
    have h2 : buffer.byteLength % 2 = 0 := by omega
    have h4 : buffer.byteLength % 4 = 0 := by omega
    unfold constructExisting
    simp [h2, h4, h8, hne]
  · intro h8 heq
    have h2 : buffer.byteLength % 2 = 0 := by omega
    have h4 : buffer.byteLength % 4 = 0 := by omega
    unfold constructExisting
    simp [h2, h4, h8, heq]

/-- Witness for C2 on a matching 40-byte buffer and on a 12-byte buffer. -/
theorem C2_construct_existing_witness :
    constructExisting 0 buf40 = .ok buf40 ∧
    constructExisting 0 buf8 = .error .typeIdMismatch :=
  ⟨(C2_construct_existing 0 buf40).2.2 (by decide) rfl,
   (C2_construct_existing 0 buf8).2.1 (by decide) (by decide)⟩

/-! ### Claim C5: lock release on callback exception -/

/-- C5: on an uncontended lock word, both `lock` and `lockAsync` run the
callback with the lock held and afterwards — for a normal return and a
thrown exception alike — store 0 back to the lock word and notify its
waiters, propagating the callback's outcome to the caller. -/
theorem C5_lock_releases_on_exception {ε α : Type} (lockId : Int)
    (st : BufferState) (callback : BufferState → Except ε α × BufferState)
    (hfree : BufferStruct.lockWord st = 0)
    (hlen : 40 ≤ st.byteLength)
    (hcb : (callback (i32write st BufferStruct.LOCK_INT32_INDEX lockId)).2.byteLength
      = st.byteLength) :
    (∃ stf, lockUncontended lockId st callback =
        some ((callback (i32write st BufferStruct.LOCK_INT32_INDEX lockId)).1, stf, true) ∧
      BufferStruct.lockWord stf = 0) ∧
    (∃ stf, lockAsyncUncontended lockId st callback =
        some ((callback (i32write st BufferStruct.LOCK_INT32_INDEX lockId)).1, stf, true) ∧
      BufferStruct.lockWord stf = 0) := by
  have hrel : BufferStruct.lockWord
      (i32write (callback (i32write st BufferStruct.LOCK_INT32_INDEX lockId)).2
        BufferStruct.LOCK_INT32_INDEX 0) = 0 := by
    unfold BufferStruct.lockWord BufferStruct.LOCK_INT32_INDEX
    unfold BufferStruct.LOCK_INT32_INDEX at hcb
    rw [i32read_i32write_self _ _ _ (by
      unfold i32len
      rw [hcb]
      omega)]
    exact int32Wrap_zero
  constructor
  · refine ⟨_, ?_, hrel⟩
    unfold lockUncontended
    simp [hfree]
  · refine ⟨_, ?_, hrel⟩
    unfold lockAsyncUncontended
    simp [hfree]

/-- A callback that throws, for the C5 witness. -/
def throwingCallback : BufferState → Except Nat Nat × BufferState :=
  fun s => (.error 7, s)

/-- Witness for C5: a throwing callback on a free 40-byte buffer. -/
theorem C5_lock_releases_on_exception_witness :
    (∃ stf, lockUncontended 123 buf40 throwingCallback = some (.error 7, stf, true) ∧
      BufferStruct.lockWord stf = 0) ∧
    (∃ stf, lockAsyncUncontended 123 buf40 throwingCallback = some (.error 7, stf, true) ∧
      BufferStruct.lockWord stf = 0) :=
  C5_lock_releases_on_exception 123 buf40 throwingCallback rfl (by decide) rfl

instance {ε α : Type} [DecidableEq ε] [DecidableEq α] : DecidableEq (Except ε α) := by
  intro a b
  cases a <;> cases b
  case error.error e1 e2 =>
    exact if h : e1 = e2 then .isTrue (by rw [h]) else
      .isFalse (by intro hc; injection hc; contradiction)
  case error.ok e1 a2 => exact .isFalse (by intro hc; injection hc)
  case ok.error a1 e2 => exact .isFalse (by intro hc; injection hc)
  case ok.ok a1 a2 =>
    exact if h : a1 = a2 then .isTrue (by rw [h]) else
      .isFalse (by intro hc; injection hc; contradiction)

/-! ### TypeId codec lemmas -/

/-- A valid type-id character code is an in-range non-zero byte. -/
theorem valid_char_bounds (c : Nat) (h : isValidTypeIdCharCode c = true) :
    48 ≤ c ∧ c ≤ 90 := by
  unfold isValidTypeIdCharCode at h
  simp only [Bool.or_eq_true, Bool.and_eq_true, decide_eq_true_eq] at h
  omega

/-- The continue-condition of both codec loops at index `i`: a valid
character, or a zero byte at a non-zero index. -/
def byteOK (c i : Nat) : Bool := isValidTypeIdCharCode c || (c == 0 && i != 0)

theorem isValidTypeIdGo_cons (t i : Nat) (rest : List Nat) :
    isValidTypeIdGo t (i :: rest) =
      (byteOK (t % 256) i && isValidTypeIdGo (t / 256) rest) := by
  simp only [isValidTypeIdGo]
  unfold byteOK
  by_cases hv : isValidTypeIdCharCode (t % 256)
  · simp [hv]
  · simp only [Bool.not_eq_true] at hv
    by_cases hz : t % 256 = 0
    · by_cases hi : i = 0 <;> simp [hv, hz, hi]
    · simp [hv, hz]

/-- Source `isValidTypeId` agrees with the four-byte characterisation. -/
theorem isValidTypeId_eq_codeValid (e : Nat) : isValidTypeId e = codeValidTypeId e := by
  unfold isValidTypeId typeIdIndices
  rw [isValidTypeIdGo_cons, isValidTypeIdGo_cons, isValidTypeIdGo_cons,
    isValidTypeIdGo_cons]
  have hb1 : e / 256 % 256 = typeIdByte e 1 := by
    unfold typeIdByte
    norm_num
  have hb2 : e / 256 / 256 % 256 = typeIdByte e 2 := by
    unfold typeIdByte
    rw [Nat.div_div_eq_div_mul]
    norm_num
  have hb3 : e / 256 / 256 / 256 % 256 = typeIdByte e 3 := by
    unfold typeIdByte
    rw [Nat.div_div_eq_div_mul, Nat.div_div_eq_div_mul]
    norm_num
  have hb0 : e % 256 = typeIdByte e 0 := by
    unfold typeIdByte
    norm_num
  rw [hb0, hb1, hb2, hb3]
  simp only [isValidTypeIdGo]
  unfold codeValidTypeId byteOK
  cases hv0 : isValidTypeIdCharCode (typeIdByte e 0) <;>
    cases hv1 : isValidTypeIdCharCode (typeIdByte e 1) <;>
    cases hv2 : isValidTypeIdCharCode (typeIdByte e 2) <;>
    cases hv3 : isValidTypeIdCharCode (typeIdByte e 3) <;>
    by_cases hz1 : typeIdByte e 1 = 0 <;>
    by_cases hz2 : typeIdByte e 2 = 0 <;>
    by_cases hz3 : typeIdByte e 3 = 0 <;>
    simp [hv0, hv1, hv2, hv3, hz1, hz2, hz3]

/-- When the validity loop rejects, the decode loop bails to `"????"` from
the same point. -/
theorem stringifyGo_quad (idx : List Nat) (t : Nat) (chars : List Nat)
    (h : isValidTypeIdGo t idx = false) :
    stringifyTypeIdGo t chars idx = quadQuestion := by
  induction idx generalizing t chars with
  | nil => simp [isValidTypeIdGo] at h
  | cons i rest ih =>
    rw [isValidTypeIdGo_cons] at h
    simp only [stringifyTypeIdGo]
    by_cases hv : isValidTypeIdCharCode (t % 256)
    · have hok : byteOK (t % 256) i = true := by simp [byteOK, hv]
      rw [hok] at h
      simp only [Bool.true_and] at h
      simp only [hv, if_pos]
      exact ih _ _ h
    · simp only [Bool.not_eq_true] at hv
      by_cases hz : t % 256 = 0
      · by_cases hi : i = 0
        · simp [hv, hz, hi, show isValidTypeIdCharCode 0 = false from rfl]
        · have hok : byteOK (t % 256) i = true := by simp [byteOK, hz, hi]
          rw [hok] at h
          simp only [Bool.true_and] at h
          simp [hv, hz, hi]
          exact ih _ _ h
      · simp [hv, hz]

/-! ### Claim C3: invalid encodings decode to "????" -/

/-- C3 counterexample: `E = 0x00420041` (bytes `'A'`, `0`, `'B'`, `0`) is
invalid under the claim's trailing-zeros-only rule, yet the codec accepts it:
`stringifyTypeId` returns `"AB"` (not `"????"`) and `isValidTypeId` returns
`true` — interior zero bytes are skipped, not rejected. -/
theorem C3_counterexample :
    specValidTypeId 4325441 = false ∧ isValidTypeId 4325441 = true ∧
    stringifyTypeId 4325441 = [65, 66] ∧ stringifyTypeId 4325441 ≠ quadQuestion := by
  decide

/-- C3 (amended): valid means byte 0 is in `A-Z`/`0-9` and every later byte
is in those ranges or zero — zero bytes may occur anywhere after byte 0, not
only as trailing bytes.  For every 32-bit encoding invalid in this sense,
`stringifyTypeId` returns `"????"` and `isValidTypeId` returns `false`. -/
theorem C3_invalid_decode (e : Nat) (he : e < 4294967296)
    (h : codeValidTypeId e = false) :
    stringifyTypeId e = quadQuestion ∧ isValidTypeId e = false := by
  have hv : isValidTypeId e = false := by
    rw [isValidTypeId_eq_codeValid]
    exact h
  exact ⟨stringifyGo_quad typeIdIndices e [] hv, hv⟩

/-- Witness for C3 at the invalid encoding 1 (byte 0 is not a valid
character). -/
theorem C3_invalid_decode_witness :
    stringifyTypeId 1 = quadQuestion ∧ isValidTypeId 1 = false :=
  C3_invalid_decode 1 (by norm_num) (by decide)

/-! ### Claim C6: encode/decode roundtrip -/

/-- Disjoint or is addition: or-ing `b << k` into an accumulator below
`2^k` adds it. -/
theorem lor_shl_eq_add (a b k : Nat) (ha : a < 2 ^ k) :
    a ||| (b <<< k) = 2 ^ k * b + a := by
  apply Nat.eq_of_testBit_eq
  intro j
  rw [Nat.testBit_lor, Nat.testBit_shiftLeft,
    Nat.testBit_mul_pow_two_add _ ha j]
  by_cases hj : j < k
  · simp [hj, Nat.not_le.mpr hj]
  · push_neg at hj
    have hfa : a.testBit j = false :=
      Nat.testBit_eq_false_of_lt
        (lt_of_lt_of_le ha (Nat.pow_le_pow_right (by norm_num) hj))
    simp [hfa, hj, Nat.not_lt.mpr hj]

/-- Closed form of the packing loop: on valid characters the or-accumulation
is little-endian byte packing. -/
theorem genTypeIdGo_ok (us : List Nat) (acc i : Nat)
    (hvalid : ∀ c ∈ us, isValidTypeIdCharCode c = true)
    (hacc : acc < 2 ^ (i * 8)) :
    genTypeIdGo acc i us = .ok (acc + 2 ^ (i * 8) * packSum us) := by
  induction us generalizing acc i with
  | nil => simp [genTypeIdGo, packSum]
  | cons c rest ih =>
    have hc : isValidTypeIdCharCode c = true := hvalid c (by simp)
    have hcb := valid_char_bounds c hc
    simp only [genTypeIdGo, hc, Bool.not_true, Bool.false_eq_true, if_false]
    rw [lor_shl_eq_add _ _ _ hacc]
    have hboundStep : 2 ^ (i * 8) * c + acc < 2 ^ ((i + 1) * 8) := by
      have hstep : 2 ^ ((i + 1) * 8) = 2 ^ (i * 8) * 256 := by
        rw [show (i + 1) * 8 = i * 8 + 8 from by ring, pow_add]
        norm_num
      have h1 : 2 ^ (i * 8) * c ≤ 2 ^ (i * 8) * 255 :=
        Nat.mul_le_mul_left _ (by omega)
      have h2 : 2 ^ (i * 8) * 255 + 2 ^ (i * 8) = 2 ^ (i * 8) * 256 := by ring
      omega
    rw [ih (2 ^ (i * 8) * c + acc) (i + 1)
      (fun x hx => hvalid x (List.mem_cons_of_mem _ hx)) hboundStep]
    congr 1
    have hstep : 2 ^ ((i + 1) * 8) = 2 ^ (i * 8) * 256 := by
      rw [show (i + 1) * 8 = i * 8 + 8 from by ring, pow_add]
      norm_num
    have hps : packSum (c :: rest) = c + 256 * packSum rest := rfl
    rw [hstep, hps]
    ring

/-- After an all-zero residue, the decode loop over indices not containing 0
returns the accumulated characters. -/
theorem stringifyGo_zeros (idx : List Nat) (chars : List Nat) (h0 : 0 ∉ idx) :
    stringifyTypeIdGo 0 chars idx = chars := by
  induction idx with
  | nil => rfl
  | cons i rest ih =>
    have hi : i ≠ 0 := fun h => h0 (by simp [h])
    simp only [stringifyTypeIdGo]
    simp [show isValidTypeIdCharCode (0 % 256) = false from rfl, hi,
      ih (fun h => h0 (by simp [h]))]

/-- The decode loop consumes the packed valid characters one per index. -/
theorem stringifyGo_consume (T : List Nat) (idx : List Nat) (chars : List Nat)
    (hlen : T.length ≤ idx.length)
    (hvalid : ∀ c ∈ T, isValidTypeIdCharCode c = true) :
    stringifyTypeIdGo (packSum T) chars idx =
      stringifyTypeIdGo 0 (chars ++ T) (idx.drop T.length) := by
  induction T generalizing idx chars with
  | nil => simp [packSum]
  | cons c rest ih =>
    cases idx with
    | nil => simp at hlen
    | cons i irest =>
      have hc : isValidTypeIdCharCode c = true := hvalid c (by simp)
      have hcb := valid_char_bounds c hc
      have hps : packSum (c :: rest) = c + 256 * packSum rest := rfl
      have hmod : packSum (c :: rest) % 256 = c := by
        rw [hps]
        omega
      have hdiv : packSum (c :: rest) / 256 = packSum rest := by
        rw [hps]
        omega
      simp only [stringifyTypeIdGo, hmod, hdiv, hc, if_pos]
      rw [ih irest (chars ++ [c]) (by simpa using hlen)
        (fun x hx => hvalid x (by simp [hx]))]
      simp

/-- The packing loop rejects as soon as it meets an invalid character. -/
theorem genTypeIdGo_invalid (us : List Nat) (acc i : Nat)
    (hbad : ∃ c ∈ us, isValidTypeIdCharCode c = false) :
    genTypeIdGo acc i us = .error .invalidChar := by
  induction us generalizing acc i with
  | nil => simp at hbad
  | cons d rest ih =>
    obtain ⟨c, hc, hcbad⟩ := hbad
    rcases List.mem_cons.mp hc with hd | hrest
    · subst hd
      simp [genTypeIdGo, hcbad]
    · simp only [genTypeIdGo]
      by_cases hd : isValidTypeIdCharCode d
      · simp only [hd, Bool.not_true, Bool.false_eq_true, if_false]
        exact ih _ _ ⟨c, hrest, hcbad⟩
      · simp [hd]

/-- C6: `genTypeId` packs a valid 1–4 character tag with
`typeId |= charCode << (i*8)` (closed form: little-endian byte packing) and
`stringifyTypeId` decodes it back to the same tag; the empty tag, tags over
4 characters, and tags with characters outside `A-Z`/`0-9` are rejected
with the corresponding errors. -/
theorem C6_genTypeId_roundtrip :
    (∀ T : List Nat, 1 ≤ T.length → T.length ≤ 4 →
      (∀ c ∈ T, isValidTypeIdCharCode c = true) →
      genTypeId T = .ok (packSum T) ∧ stringifyTypeId (packSum T) = T) ∧
    genTypeId [] = .error .lengthTooShort ∧
    (∀ T : List Nat, 4 < T.length → genTypeId T = .error .lengthTooLong) ∧
    (∀ T : List Nat, 1 ≤ T.length → T.length ≤ 4 →
      (∃ c ∈ T, isValidTypeIdCharCode c = false) →
      genTypeId T = .error .invalidChar) := by
  refine ⟨?_, rfl, ?_, ?_⟩
  · intro T h1 h4 hvalid
    constructor
    · unfold genTypeId
      rw [if_neg (by omega), if_neg (by omega)]
      rw [genTypeIdGo_ok T 0 0 hvalid (by norm_num)]
      norm_num
    · unfold stringifyTypeId
      rw [stringifyGo_consume T typeIdIndices [] (by
        unfold typeIdIndices
        simpa using h4) hvalid]
      rw [stringifyGo_zeros _ _ (by
        have hl : T.length = 1 ∨ T.length = 2 ∨ T.length = 3 ∨ T.length = 4 := by
          omega
        rcases hl with hl | hl | hl | hl <;> rw [hl] <;> decide)]
      simp
  · intro T hlong
    unfold genTypeId
    rw [if_neg (by omega), if_pos (by omega)]
  · intro T h1 h4 hbad
    unfold genTypeId
    rw [if_neg (by omega), if_neg (by omega)]
    exact genTypeIdGo_invalid T 0 0 hbad

/-- Witness for C6 on the tag `"TEST"` and the three error shapes. -/
theorem C6_genTypeId_roundtrip_witness :
    (genTypeId [84, 69, 83, 84] = .ok (packSum [84, 69, 83, 84]) ∧
      stringifyTypeId (packSum [84, 69, 83, 84]) = [84, 69, 83, 84]) ∧
    genTypeId [] = .error .lengthTooShort ∧
    genTypeId [65, 65, 65, 65, 65] = .error .lengthTooLong ∧
    genTypeId [33] = .error .invalidChar :=
  ⟨C6_genTypeId_roundtrip.1 [84, 69, 83, 84] (by norm_num) (by norm_num) (by decide),
   C6_genTypeId_roundtrip.2.1,
   C6_genTypeId_roundtrip.2.2.1 [65, 65, 65, 65, 65] (by norm_num),
   C6_genTypeId_roundtrip.2.2.2 [33] (by norm_num) (by norm_num)
     ⟨33, by norm_num, by decide⟩⟩

/-! ### Claim C10: property layout -/

/-- Invariant maintained by the `structProp` layout computation: the running
size stays at least the 40-byte header and divisible by 4, every declared
property is aligned, sits past the header, fits below the running size, and
the slots are pairwise disjoint in declaration order. -/
def layoutInv (L : LayoutState) : Prop :=
  40 ≤ L.size ∧ L.size % 4 = 0 ∧
  (∀ pd ∈ L.propDefs, 40 ≤ pd.byteOffset ∧ pd.byteOffset % alignOf pd.type = 0 ∧
    pd.byteOffset + pd.byteSize ≤ L.size) ∧
  L.propDefs.Pairwise (fun p q => p.byteOffset + p.byteSize ≤ q.byteOffset)

theorem layoutInv_append (acc : LayoutState) (pd : PropDef)
    (hinv : layoutInv acc)
    (hge : acc.size ≤ pd.byteOffset)
    (h40 : 40 ≤ pd.byteOffset)
    (halign : pd.byteOffset % alignOf pd.type = 0)
    (hsz : (pd.byteOffset + pd.byteSize) % 4 = 0) :
    layoutInv ⟨acc.propDefs ++ [pd], pd.byteOffset + pd.byteSize⟩ := by
  obtain ⟨hs40, hs4, hprops, hpair⟩ := hinv
  unfold layoutInv
  dsimp only
  refine ⟨by omega, hsz, ?_, ?_⟩
  · intro q hq
    rcases List.mem_append.mp hq with hold | hnew
    · obtain ⟨hq40, hqal, hqsz⟩ := hprops q hold
      exact ⟨hq40, hqal, by omega⟩
    · rw [List.mem_singleton.mp hnew]
      exact ⟨h40, halign, by omega⟩
  · rw [List.pairwise_append]
    refine ⟨hpair, by simp, ?_⟩
    intro a ha b hb
    rw [List.mem_singleton.mp hb]
    obtain ⟨_, _, hasz⟩ := hprops a ha
    omega

theorem addStructProp_inv (acc : LayoutState) (p : String × StructPropType × Bool)
    (h : layoutInv acc) : layoutInv (addStructProp acc p) := by
  have hs40 : 40 ≤ acc.size := h.1
  have hs4 : acc.size % 4 = 0 := h.2.1
  obtain ⟨name, ty, au⟩ := p
  cases ty
  · simp only [addStructProp, structPropLayout]
    exact layoutInv_append acc _ h (by dsimp only; omega) (by dsimp only; omega)
      (by dsimp only [alignOf]; omega) (by dsimp only; omega)
  · simp only [addStructProp, structPropLayout]
    exact layoutInv_append acc _ h (by dsimp only; omega) (by dsimp only; omega)
      (by dsimp only [alignOf]; omega) (by dsimp only; omega)
  · simp only [addStructProp, structPropLayout]
    exact layoutInv_append acc _ h (by dsimp only; omega) (by dsimp only; omega)
      (by dsimp only [alignOf]; omega) (by dsimp only; omega)
  · simp only [addStructProp, structPropLayout]
    exact layoutInv_append acc _ h (by dsimp only; omega) (by dsimp only; omega)
      (by dsimp only [alignOf]; omega) (by dsimp only; omega)

theorem computeLayout_inv (props : List (String × StructPropType × Bool)) :
    layoutInv (computeLayout props) := by
  unfold computeLayout
  have base : layoutInv { propDefs := [], size := 10 * 4 } :=
    ⟨by norm_num, by norm_num, by simp, by simp⟩
  suffices h : ∀ acc, layoutInv acc → layoutInv (props.foldl addStructProp acc) from
    h _ base
  induction props with
  | nil => intro acc hacc; exact hacc
  | cons p rest ih =>
    intro acc hacc
    exact ih _ (addStructProp_inv acc p hacc)

/-- C10: for every concrete struct type declared through a sequence of
`structProp` decorators, every property's byte offset is at least 40 (past
the header), is a multiple of its type's alignment (2 for string, 4 for
int32/boolean, 8 for number), every slot ends within the computed size, and
the slots of distinct properties are pairwise disjoint byte ranges (each
slot ends at or before the next begins). -/
theorem C10_layout_disjoint_aligned (props : List (String × StructPropType × Bool)) :
    (∀ pd ∈ (computeLayout props).propDefs,
      40 ≤ pd.byteOffset ∧ pd.byteOffset % alignOf pd.type = 0 ∧
      pd.byteOffset + pd.byteSize ≤ (computeLayout props).size) ∧
    (computeLayout props).propDefs.Pairwise
      (fun p q => p.byteOffset + p.byteSize ≤ q.byteOffset) :=
  ⟨(computeLayout_inv props).2.2.1, (computeLayout_inv props).2.2.2⟩

/-- Witness for C10 on a two-property (string, number) struct type. -/
theorem C10_layout_disjoint_aligned_witness :
    40 ≤ (552 : Nat) ∧ (552 : Nat) % alignOf .number = 0 ∧
    (552 : Nat) + 8 ≤ (computeLayout [("a", .string, false), ("b", .number, false)]).size := by
  have h := (C10_layout_disjoint_aligned [("a", .string, false), ("b", .number, false)]).1
    { propNum := 1, name := "b", type := .number, byteOffset := 552, offset := 69,
      byteSize := 8, allowUndefined := false } (by decide)
  exact h

/-! ### Claim C8: equal writes and undefined re-writes are no-ops -/

/-- When a property is not in the undefined state its getter never returns
`undefined`. -/
theorem structPropGet_ne_undef (pd : PropDef) (st : BufferState) (cur : JSVal)
    (hcond : (pd.allowUndefined && BufferStruct.isUndefined st pd.propNum) = false)
    (hget : structPropGet pd st = .ok cur) : cur ≠ JSVal.undefValue := by
  unfold structPropGet at hget
  rw [hcond] at hget
  simp only [Bool.false_eq_true, if_false] at hget
  cases hty : pd.type <;> rw [hty] at hget
  · split_ifs at hget with h1 h2 <;> simp only [Except.ok.injEq] at hget <;>
      rw [← hget] <;> simp
  · simp only [Except.ok.injEq] at hget
    rw [← hget]
    simp
  · simp only [Except.ok.injEq] at hget
    rw [← hget]
    simp
  · simp only [Except.ok.injEq] at hget
    rw [← hget]
    simp

theorem exceptBind_ok {ε α β : Type} (v : α) (f : α → Except ε β) :
    (do let x ← Except.ok v; f x) = f v := rfl

/-- The typed payload write is a no-op when the value equals the current
value. -/
theorem structPropSetPayload_equal (pd : PropDef) (st : BufferState) (cur : JSVal)
    (hget : structPropGet pd st = .ok cur) :
    structPropSetPayload pd st cur = .ok st := by
  unfold structPropSetPayload
  cases hty : pd.type <;> dsimp only <;> rw [hget] <;>
    cases cur <;> rw [exceptBind_ok] <;> simp

/-- C8: writing a value strictly equal to the currently stored value of a
property that is not in the undefined state leaves the buffer — and hence
the property's dirty bit and both dirty bitmask words — completely
unchanged; and writing `undefined` to a nullable property that is already
undefined is likewise a buffer no-op. -/
theorem C8_equal_write_noop (pd : PropDef) (st : BufferState) :
    (∀ cur : JSVal,
      (pd.allowUndefined = false ∨ BufferStruct.isUndefined st pd.propNum = false) →
      structPropGet pd st = .ok cur →
      structPropSet pd st cur = .ok st) ∧
    (pd.allowUndefined = true → BufferStruct.isUndefined st pd.propNum = true →
      structPropSet pd st JSVal.undefValue = .ok st) := by
  constructor
  · intro cur hnotU hget
    have hcond : (pd.allowUndefined && BufferStruct.isUndefined st pd.propNum) = false := by
      rcases hnotU with h | h <;> simp [h]
    have hne := structPropGet_ne_undef pd st cur hcond hget
    have hpayload := structPropSetPayload_equal pd st cur hget
    unfold structPropSet
    by_cases hau : pd.allowUndefined = true
    · have hisU : BufferStruct.isUndefined st pd.propNum = false := by
        rcases hnotU with h | h
        · rw [h] at hau
          cases hau
        · exact h
      rw [if_pos hau, if_neg hne, hisU]
      simpa using hpayload
    · simp only [Bool.not_eq_true] at hau
      rw [hau]
      simpa using hpayload
  · intro hau hisU
    unfold structPropSet
    rw [if_pos hau, if_pos rfl, hisU]
    simp

/-- A plain number property at the start of the property region. -/
def pdNum : PropDef :=
  { propNum := 0, name := "p", type := .number, byteOffset := 40, offset := 5,
    byteSize := 8, allowUndefined := false }

/-- A nullable number property at the start of the property region. -/
def pdNumU : PropDef :=
  { propNum := 0, name := "p", type := .number, byteOffset := 40, offset := 5,
    byteSize := 8, allowUndefined := true }

/-- A fresh one-number-property struct (type id 42, unique id 7). -/
def stFreshNum : BufferState := constructFresh 42 7 [pdNum] 48

/-- A fresh one-nullable-number-property struct. -/
def stFreshNumU : BufferState := constructFresh 42 7 [pdNumU] 48

/-- Witness for C8: writing the stored 0 to a fresh number property, and
writing `undefined` to a fresh nullable property, both leave the buffer
unchanged. -/
theorem C8_equal_write_noop_witness :
    structPropSet pdNum stFreshNum (JSVal.num 0) = .ok stFreshNum ∧
    structPropSet pdNumU stFreshNumU JSVal.undefValue = .ok stFreshNumU :=
  ⟨(C8_equal_write_noop pdNum stFreshNum).1 (JSVal.num 0) (Or.inl rfl) rfl,
   (C8_equal_write_noop pdNumU stFreshNumU).2 rfl (by decide)⟩

/-! ### Claim C1: writes set the dirty bit -/

theorem exceptBind_error {ε α β : Type} (e : ε) (f : α → Except ε β) :
    (do let x ← Except.error e; f x) = .error e := rfl

theorem isDirty_writeUnits (us : List Nat) (st : BufferState) (i : Nat)
    (x : Option Nat) :
    BufferStruct.isDirty (writeUnits st i us) x = BufferStruct.isDirty st x := by
  induction us generalizing st i with
  | nil => rfl
  | cons u rest ih =>
    unfold writeUnits
    rw [ih, isDirty_u16write]

theorem isUndefined_writeUnits (us : List Nat) (st : BufferState) (i pn : Nat) :
    BufferStruct.isUndefined (writeUnits st i us) pn = BufferStruct.isUndefined st pn := by
  induction us generalizing st i with
  | nil => rfl
  | cons u rest ih =>
    unfold writeUnits
    rw [ih, isUndefined_u16write]

theorem foldl_setUndefined_byteLength (defs : List PropDef) (st : BufferState) :
    (List.foldl
      (fun acc pd =>
        if pd.allowUndefined then BufferStruct.setUndefined acc pd.propNum true else acc)
      st defs).byteLength = st.byteLength := by
  induction defs generalizing st with
  | nil => rfl
  | cons pd rest ih =>
    simp only [List.foldl_cons]
    rw [ih]
    by_cases hau : pd.allowUndefined = true
    · rw [if_pos hau, setUndefined_byteLength]
    · simp only [Bool.not_eq_true] at hau
      rw [hau]
      simp

theorem constructFresh_byteLength (typeId : Int) (uniqueId : Rat)
    (defs : List PropDef) (size : Nat) :
    (constructFresh typeId uniqueId defs size).byteLength = (size + 7) / 8 * 8 := by
  unfold constructFresh
  dsimp only
  rw [foldl_setUndefined_byteLength, f64write_byteLength, i32write_byteLength]

theorem structPropSetPayload_byteLength (pd : PropDef) (st : BufferState)
    (v : JSVal) (st' : BufferState)
    (h : structPropSetPayload pd st v = .ok st') :
    st'.byteLength = st.byteLength := by
  unfold structPropSetPayload at h
  cases hty : pd.type <;> rw [hty] at h <;> dsimp only at h <;>
    cases hget : structPropGet pd st <;> rw [hget] at h
  case string.error e =>
    rw [exceptBind_error] at h
    cases h
  case string.ok cur =>
    rw [exceptBind_ok] at h
    cases v <;> simp only [Except.ok.injEq] at h <;> try (rw [← h])
    case str s =>
      split_ifs at h <;> simp only [Except.ok.injEq] at h <;> rw [← h] <;>
        simp [writeUnits_byteLength, u16write_byteLength, setDirty_byteLength]
    all_goals rfl
  case int32.error e =>
    rw [exceptBind_error] at h
    cases h
  case int32.ok cur =>
    rw [exceptBind_ok] at h
    cases v <;> simp only [Except.ok.injEq] at h <;> try (rw [← h])
    case num q =>
      split_ifs at h <;> simp only [Except.ok.injEq] at h <;> rw [← h] <;>
        simp [i32write_byteLength, setDirty_byteLength]
    all_goals rfl
  case boolean.error e =>
    rw [exceptBind_error] at h
    cases h
  case boolean.ok cur =>
    rw [exceptBind_ok] at h
    cases v <;> simp only [Except.ok.injEq] at h <;> try (rw [← h])
    case bool b =>
      split_ifs at h <;> simp only [Except.ok.injEq] at h <;> rw [← h] <;>
        simp [i32write_byteLength, setDirty_byteLength]
    all_goals rfl
  case number.error e =>
    rw [exceptBind_error] at h
    cases h
  case number.ok cur =>
    rw [exceptBind_ok] at h
    cases v <;> simp only [Except.ok.injEq] at h <;> try (rw [← h])
    case num q =>
      split_ifs at h <;> simp only [Except.ok.injEq] at h <;> rw [← h] <;>
        simp [f64write_byteLength, setDirty_byteLength]
    all_goals rfl

theorem structPropSet_byteLength (pd : PropDef) (st : BufferState)
    (v : JSVal) (st' : BufferState)
    (h : structPropSet pd st v = .ok st') :
    st'.byteLength = st.byteLength := by
  unfold structPropSet at h
  by_cases hau : pd.allowUndefined = true
  · rw [if_pos hau] at h
    by_cases hv : v = JSVal.undefValue
    · rw [if_pos hv] at h
      by_cases hisU : BufferStruct.isUndefined st pd.propNum = true
      · rw [hisU] at h
        simp only [if_pos, Except.ok.injEq] at h
        rw [← h]
      · simp only [Bool.not_eq_true] at hisU
        rw [hisU] at h
        simp only [Bool.false_eq_true, if_false, Except.ok.injEq] at h
        rw [← h, setUndefined_byteLength, setDirty_byteLength]
    · rw [if_neg hv] at h
      by_cases hisU : BufferStruct.isUndefined st pd.propNum = true
      · rw [hisU] at h
        simp only [if_pos] at h
        have := structPropSetPayload_byteLength pd _ v st' h
        rw [this, setUndefined_byteLength, setDirty_byteLength]
      · simp only [Bool.not_eq_true] at hisU
        rw [hisU] at h
        simp only [Bool.false_eq_true, if_false] at h
        exact structPropSetPayload_byteLength pd _ v st' h
  · simp only [Bool.not_eq_true] at hau
    rw [hau] at h
    simp only [Bool.false_eq_true, if_false] at h
    exact structPropSetPayload_byteLength pd _ v st' h

/-- The state on which the setter's equality check runs: when a defined
value is written to a nullable property currently undefined, the setter has
already set the dirty bit and cleared the undefined bit. -/
def afterUndefTransition (pd : PropDef) (st : BufferState) (value : JSVal) : BufferState :=
  if pd.allowUndefined = true ∧ value ≠ JSVal.undefValue ∧
      BufferStruct.isUndefined st pd.propNum = true then
    BufferStruct.setUndefined (BufferStruct.setDirty st pd.propNum) pd.propNum false
  else st

/-- A typed payload write of a value differing from the current value sets
the property's dirty bit and makes `isDirty()` true. -/
theorem structPropSetPayload_dirty (pd : PropDef) (st : BufferState)
    (value cur : JSVal)
    (hlen : 40 ≤ st.byteLength)
    (hpn : pd.propNum < 64)
    (hoff : pd.type = .int32 ∨ pd.type = .boolean → 10 ≤ pd.offset)
    (hty : valueHasType value pd.type = true)
    (hget : structPropGet pd st = .ok cur)
    (hne : value ≠ cur) :
    ∃ st', structPropSetPayload pd st value = .ok st' ∧
      BufferStruct.isDirty st' (some pd.propNum) = true ∧
      BufferStruct.isDirty st' none = true ∧
      st'.byteLength = st.byteLength := by
  have hb7 : 7 < i32len st := by
    unfold i32len
    omega
  have hbsome : 6 + pd.propNum / 32 < i32len st := by
    unfold i32len
    omega
  unfold structPropSetPayload
  cases hty2 : pd.type
  case string =>
    rw [hty2] at hty hoff
    cases value <;> simp [valueHasType] at hty
    case str s =>
    dsimp only
    rw [hget, exceptBind_ok, if_neg hne]
    refine ⟨_, rfl, ?_, ?_, ?_⟩
    · rw [isDirty_writeUnits, isDirty_u16write]
      exact isDirty_some_setDirty st _ hbsome
    · rw [isDirty_writeUnits, isDirty_u16write]
      exact isDirty_none_setDirty st _ hpn hb7
    · rw [writeUnits_byteLength, u16write_byteLength, setDirty_byteLength]
  case int32 =>
    rw [hty2] at hty hoff
    have hoff10 : 10 ≤ pd.offset := hoff (Or.inl rfl)
    cases value <;> simp [valueHasType] at hty
    case num q =>
    dsimp only
    rw [hget, exceptBind_ok, if_neg hne]
    refine ⟨_, rfl, ?_, ?_, ?_⟩
    · rw [isDirty_some_i32write _ _ _ _ (by omega)]
      exact isDirty_some_setDirty st _ hbsome
    · rw [isDirty_none_i32write _ _ _ (by omega) (by omega)]
      exact isDirty_none_setDirty st _ hpn hb7
    · rw [i32write_byteLength, setDirty_byteLength]
  case boolean =>
    rw [hty2] at hty hoff
    have hoff10 : 10 ≤ pd.offset := hoff (Or.inr rfl)
    cases value <;> simp [valueHasType] at hty
    case bool b =>
    dsimp only
    rw [hget, exceptBind_ok, if_neg hne]
    refine ⟨_, rfl, ?_, ?_, ?_⟩
    · rw [isDirty_some_i32write _ _ _ _ (by omega)]
      exact isDirty_some_setDirty st _ hbsome
    · rw [isDirty_none_i32write _ _ _ (by omega) (by omega)]
      exact isDirty_none_setDirty st _ hpn hb7
    · rw [i32write_byteLength, setDirty_byteLength]
  case number =>
    rw [hty2] at hty hoff
    cases value <;> simp [valueHasType] at hty
    case num q =>
    dsimp only
    rw [hget, exceptBind_ok, if_neg hne]
    refine ⟨_, rfl, ?_, ?_, ?_⟩
    · rw [isDirty_f64write]
      exact isDirty_some_setDirty st _ hbsome
    · rw [isDirty_f64write]
      exact isDirty_none_setDirty st _ hpn hb7
    · rw [f64write_byteLength, setDirty_byteLength]

/-- Source `descriptor.set` with a well-typed value differing from the current value
always sets the property's dirty bit. -/
theorem structPropSet_dirty (pd : PropDef) (st : BufferState) (value cur : JSVal)
    (hlen : 40 ≤ st.byteLength)
    (hpn : pd.propNum < 64)
    (hoff : pd.type = .int32 ∨ pd.type = .boolean → 10 ≤ pd.offset)
    (hty : valueHasType value pd.type = true ∨
      (value = JSVal.undefValue ∧ pd.allowUndefined = true))
    (hget : structPropGet pd (afterUndefTransition pd st value) = .ok cur)
    (hne : value ≠ cur) :
    ∃ st', structPropSet pd st value = .ok st' ∧
      BufferStruct.isDirty st' (some pd.propNum) = true ∧
      BufferStruct.isDirty st' none = true ∧
      st'.byteLength = st.byteLength := by
  have hb7 : 7 < i32len st := by
    unfold i32len
    omega
  have hbsome : 6 + pd.propNum / 32 < i32len st := by
    unfold i32len
    omega
  unfold structPropSet
  by_cases hau : pd.allowUndefined = true
  · rw [if_pos hau]
    by_cases hv : value = JSVal.undefValue
    · rw [if_pos hv]
      by_cases hisU : BufferStruct.isUndefined st pd.propNum = true
      · exfalso
        have htr : afterUndefTransition pd st value = st := by
          unfold afterUndefTransition
          rw [if_neg (by
            intro hcon
            exact hcon.2.1 hv)]
        rw [htr] at hget
        have hgu : structPropGet pd st = .ok JSVal.undefValue := by
          unfold structPropGet
          rw [hau, hisU]
          simp
        rw [hgu] at hget
        simp only [Except.ok.injEq] at hget
        rw [hv, hget] at hne
        exact hne rfl
      · simp only [Bool.not_eq_true] at hisU
        rw [hisU]
        simp only [Bool.false_eq_true, if_false]
        refine ⟨_, rfl, ?_, ?_, ?_⟩
        · rw [isDirty_setUndefined _ _ _ _ (by
            intro pn' h
            injection h with h
            omega)]
          exact isDirty_some_setDirty st _ hbsome
        · rw [isDirty_setUndefined _ _ _ _ (by intro pn' h; cases h)]
          exact isDirty_none_setDirty st _ hpn hb7
        · rw [setUndefined_byteLength, setDirty_byteLength]
    · rw [if_neg hv]
      have htyL : valueHasType value pd.type = true := by
        rcases hty with h | h
        · exact h
        · exact absurd h.1 hv
      by_cases hisU : BufferStruct.isUndefined st pd.propNum = true
      · rw [hisU]
        simp only [if_pos]
        have htr : afterUndefTransition pd st value =
            BufferStruct.setUndefined (BufferStruct.setDirty st pd.propNum)
              pd.propNum false := by
          unfold afterUndefTransition
          rw [if_pos ⟨hau, hv, hisU⟩]
        rw [htr] at hget
        obtain ⟨st', hpl, hd1, hd2, hlen'⟩ :=
          structPropSetPayload_dirty pd _ value cur
            (by rw [setUndefined_byteLength, setDirty_byteLength]; exact hlen)
            hpn hoff htyL hget hne
        refine ⟨st', hpl, hd1, hd2, ?_⟩
        rw [hlen', setUndefined_byteLength, setDirty_byteLength]
      · simp only [Bool.not_eq_true] at hisU
        rw [hisU]
        simp only [Bool.false_eq_true, if_false]
        have htr : afterUndefTransition pd st value = st := by
          unfold afterUndefTransition
          rw [if_neg (by
            intro hcon
            rw [hisU] at hcon
            exact absurd hcon.2.2 (by simp))]
        rw [htr] at hget
        exact structPropSetPayload_dirty pd st value cur hlen hpn hoff htyL hget hne
  · simp only [Bool.not_eq_true] at hau
    rw [hau]
    simp only [Bool.false_eq_true, if_false]
    have htyL : valueHasType value pd.type = true := by
      rcases hty with h | h
      · exact h
      · rw [hau] at h
        exact absurd h.2 (by simp)
    have htr : afterUndefTransition pd st value = st := by
      unfold afterUndefTransition
      rw [if_neg (by
        intro hcon
        rw [hau] at hcon
        exact absurd hcon.1 (by simp))]
    rw [htr] at hget
    exact structPropSetPayload_dirty pd st value cur hlen hpn hoff htyL hget hne

/-- C1 (amended): on a freshly constructed `BufferStruct` (no pre-existing
buffer), every write of a well-typed value that differs from the property's
current value — the quantification the counterexample forces; a write equal
to the current value is skipped by the setter's equality short-circuit —
immediately makes `isDirty(propNum)` and `isDirty()` true, and a subsequent
`resetDirty()` makes both false again.  `propNum < 64` reflects the header's
two 32-bit dirty mask words. -/
theorem C1_fresh_write_sets_dirty (typeId : Int) (uniqueId : Rat)
    (defs : List PropDef) (size : Nat) (pd : PropDef) (value cur : JSVal)
    (_hpd : pd ∈ defs)
    (hsize : 40 ≤ size)
    (hpn : pd.propNum < 64)
    (hoff : pd.type = .int32 ∨ pd.type = .boolean → 10 ≤ pd.offset)
    (hty : valueHasType value pd.type = true ∨
      (value = JSVal.undefValue ∧ pd.allowUndefined = true))
    (hget : structPropGet pd
      (afterUndefTransition pd (constructFresh typeId uniqueId defs size) value) = .ok cur)
    (hne : value ≠ cur) :
    ∃ st', structPropSet pd (constructFresh typeId uniqueId defs size) value = .ok st' ∧
      BufferStruct.isDirty st' (some pd.propNum) = true ∧
      BufferStruct.isDirty st' none = true ∧
      BufferStruct.isDirty (BufferStruct.resetDirty st') (some pd.propNum) = false ∧
      BufferStruct.isDirty (BufferStruct.resetDirty st') none = false := by
  have hlen : 40 ≤ (constructFresh typeId uniqueId defs size).byteLength := by
    rw [constructFresh_byteLength]
    omega
  obtain ⟨st', hset, hd1, hd2, hblen⟩ :=
    structPropSet_dirty pd _ value cur hlen hpn hoff hty hget hne
  have hb7 : 7 < i32len st' := by
    unfold i32len
    rw [hblen]
    omega
  refine ⟨st', hset, hd1, hd2, ?_, ?_⟩
  · exact isDirty_resetDirty st' (some pd.propNum) hb7 (by
      intro pn' h
      injection h with h
      omega)
  · exact isDirty_resetDirty st' none hb7 (by intro pn' h; cases h)

/-- Witness for C1: writing 1 to a fresh number property whose current value
is 0. -/
theorem C1_fresh_write_sets_dirty_witness :
    ∃ st', structPropSet pdNum (constructFresh 42 7 [pdNum] 48) (JSVal.num 1) = .ok st' ∧
      BufferStruct.isDirty st' (some pdNum.propNum) = true ∧
      BufferStruct.isDirty st' none = true ∧
      BufferStruct.isDirty (BufferStruct.resetDirty st') (some pdNum.propNum) = false ∧
      BufferStruct.isDirty (BufferStruct.resetDirty st') none = false :=
  C1_fresh_write_sets_dirty 42 7 [pdNum] 48 pdNum (JSVal.num 1) (JSVal.num 0)
    (by decide) (by omega) (by decide) (by intro h; cases h <;> contradiction)
    (Or.inl rfl) (by decide) (by decide)

/-- C1 counterexample: on a fresh struct with one number property, writing
the value 0 — which equals the zero-initialised stored value — leaves the
buffer unchanged and `isDirty(0)` and `isDirty()` are still `false`
afterwards, contradicting the claim's "for every write W". -/
theorem C1_counterexample :
    structPropSet pdNum stFreshNum (JSVal.num 0) = .ok stFreshNum ∧
    BufferStruct.isDirty stFreshNum (some 0) = false ∧
    BufferStruct.isDirty stFreshNum none = false :=
  ⟨rfl, by decide, by decide⟩

/-! ### Claim C7: string writes truncate to 255 code units -/

theorem u16read_writeUnits_lt (us : List Nat) (st : BufferState) (i j : Nat)
    (h : j < i) : u16read (writeUnits st i us) j = u16read st j := by
  induction us generalizing st i with
  | nil => rfl
  | cons u rest ih =>
    unfold writeUnits
    rw [ih _ _ (by omega), u16read_u16write_ne _ _ _ _ (by omega)]

theorem u16read_writeUnits_at (us : List Nat) (st : BufferState) (i k : Nat)
    (hk : k < us.length) (hcap : i + us.length ≤ u16len st) :
    u16read (writeUnits st i us) (i + k) = us.getD k 0 % 65536 := by
  induction us generalizing st i k with
  | nil => simp at hk
  | cons u rest ih =>
    unfold writeUnits
    cases k with
    | zero =>
      rw [u16read_writeUnits_lt _ _ _ _ (by omega)]
      rw [show i + 0 = i from rfl]
      rw [u16read_u16write_self _ _ _ (by simp at hcap; omega)]
      simp
    | succ k' =>
      have hlen' : u16len (u16write st i u) = u16len st := by
        unfold u16len
        rw [u16write_byteLength]
      rw [show i + (k' + 1) = (i + 1) + k' from by omega]
      rw [ih (u16write st i u) (i + 1) k' (by simp at hk; omega)
        (by rw [hlen']; simp at hcap; omega)]
      simp

/-- Source `descriptor.set` of a defined value is the typed payload write on the
post-transition state. -/
theorem structPropSet_eq_payload (pd : PropDef) (st : BufferState) (value : JSVal)
    (hv : value ≠ JSVal.undefValue) :
    structPropSet pd st value =
      structPropSetPayload pd (afterUndefTransition pd st value) value := by
  unfold structPropSet afterUndefTransition
  by_cases hau : pd.allowUndefined = true
  · by_cases hisU : BufferStruct.isUndefined st pd.propNum = true
    · simp [hau, hv, hisU]
    · simp only [Bool.not_eq_true] at hisU
      simp [hau, hv, hisU]
  · simp only [Bool.not_eq_true] at hau
    simp [hau, hv]

/-- The undefined bit of the written property is clear after the transition
state, whenever the property is nullable. -/
theorem afterUndefTransition_isUndefined (pd : PropDef) (st : BufferState)
    (value : JSVal) (hau : pd.allowUndefined = true) (hv : value ≠ JSVal.undefValue)
    (hb : 8 + pd.propNum / 32 < i32len st) :
    BufferStruct.isUndefined (afterUndefTransition pd st value) pd.propNum = false := by
  unfold afterUndefTransition
  by_cases hisU : BufferStruct.isUndefined st pd.propNum = true
  · rw [if_pos ⟨hau, hv, hisU⟩]
    exact isUndefined_setUndefined_false _ _ (by
      unfold i32len at hb ⊢
      rw [setDirty_byteLength]
      exact hb)
  · simp only [Bool.not_eq_true] at hisU
    simp [hau, hv, hisU]

theorem afterUndefTransition_byteLength (pd : PropDef) (st : BufferState)
    (value : JSVal) :
    (afterUndefTransition pd st value).byteLength = st.byteLength := by
  unfold afterUndefTransition
  split
  · rw [setUndefined_byteLength, setDirty_byteLength]
  · rfl

/-- C7: assigning a string `s` to a string property whose current value
differs stores the first `min(|s|, 255)` UTF-16 code units (truncation to
255 with a logged warning, not an error), and a subsequent read returns
exactly those code units. -/
theorem C7_string_write_truncates (pd : PropDef) (st : BufferState)
    (s : List Nat) (cur : JSVal)
    (hty : pd.type = .string)
    (hpn : pd.propNum < 64)
    (hlen : 40 ≤ st.byteLength)
    (hcap : pd.offset + 256 ≤ u16len st)
    (hunits : ∀ u ∈ s, u < 65536)
    (hget : structPropGet pd (afterUndefTransition pd st (JSVal.str s)) = .ok cur)
    (hne : JSVal.str s ≠ cur) :
    ∃ st', structPropSet pd st (JSVal.str s) = .ok st' ∧
      structPropGet pd st' = .ok (JSVal.str (s.take 255)) := by
  have hXlen : (afterUndefTransition pd st (JSVal.str s)).byteLength = st.byteLength :=
    afterUndefTransition_byteLength pd st _
  rw [structPropSet_eq_payload pd st _ (by simp)]
  unfold structPropSetPayload
  rw [hty]
  dsimp only
  rw [hget, exceptBind_ok, if_neg hne]
  refine ⟨_, rfl, ?_⟩
  have hlength_le : (if s.length > 255 then 255 else s.length) ≤ 255 := by
    split <;> omega
  have hlength_les : (if s.length > 255 then 255 else s.length) ≤ s.length := by
    split <;> omega
  generalize hlendef : (if s.length > 255 then 255 else s.length) = length at *
  set stX := afterUndefTransition pd st (JSVal.str s) with hstX
  set stD := BufferStruct.setDirty stX pd.propNum with hstD
  set stL := u16write stD pd.offset length with hstL
  set stW := writeUnits stL (pd.offset + 1) (s.take length) with hstW
  have hDlen : stD.byteLength = st.byteLength := by
    rw [hstD, setDirty_byteLength, hXlen]
  have hLlen : stL.byteLength = st.byteLength := by
    rw [hstL, u16write_byteLength, hDlen]
  have hWlen : stW.byteLength = st.byteLength := by
    rw [hstW, writeUnits_byteLength, hLlen]
  have hU : pd.allowUndefined = true → BufferStruct.isUndefined stW pd.propNum = false := by
    intro hau
    rw [hstW, isUndefined_writeUnits, hstL, isUndefined_u16write, hstD,
      isUndefined_setDirty_self]
    exact afterUndefTransition_isUndefined pd st _ hau (by simp) (by
      unfold i32len
      omega)
  have hcond : (pd.allowUndefined && BufferStruct.isUndefined stW pd.propNum) = false := by
    by_cases hau : pd.allowUndefined = true
    · rw [hau, hU hau]
      rfl
    · simp only [Bool.not_eq_true] at hau
      rw [hau]
      rfl
  have hlw : u16read stW pd.offset = length := by
    rw [hstW, u16read_writeUnits_lt _ _ _ _ (by omega)]
    rw [hstL, u16read_u16write_self _ _ _ (by
      unfold u16len at hcap ⊢
      omega)]
    exact Nat.mod_eq_of_lt (by omega)
  unfold structPropGet
  rw [hty, hcond]
  simp only [Bool.false_eq_true, if_false]
  rw [hlw]
  by_cases h0 : length = 0
  · rw [if_pos h0]
    have hs0 : s = [] := by
      have hl0 : s.length = 0 := by
        by_cases hgt : s.length > 255
        · rw [if_pos hgt] at hlendef
          omega
        · rw [if_neg hgt] at hlendef
          omega
      exact List.length_eq_zero.mp hl0
    rw [hs0]
    simp
  · rw [if_neg h0, if_neg (by omega)]
    have htakeeq : s.take length = s.take 255 := by
      by_cases hgt : s.length > 255
      · rw [if_pos hgt] at hlendef
        rw [hlendef]
      · rw [if_neg hgt] at hlendef
        rw [← hlendef, List.take_of_length_le (le_refl _),
          List.take_of_length_le (by omega)]
    simp only [Except.ok.injEq, JSVal.str.injEq]
    rw [← htakeeq]
    apply List.ext_getElem
    · rw [List.length_map, List.length_range, List.length_take]
      omega
    · intro k h1 h2
      rw [List.getElem_map, List.getElem_range]
      have hk : k < length := by simpa using h1
      have hread := u16read_writeUnits_at (s.take length) stL (pd.offset + 1) k
        (by rw [List.length_take]; omega)
        (by
          rw [List.length_take]
          unfold u16len at hcap ⊢
          omega)
      rw [show pd.offset + 1 + k = pd.offset + 1 + k from rfl]
      rw [← hstW] at hread
      rw [hread]
      rw [List.getD_eq_getElem _ _ (by rw [List.length_take]; omega)]
      apply Nat.mod_eq_of_lt
      rw [List.getElem_take]
      exact hunits _ (List.getElem_mem _)

/-- A plain string property at the start of the property region. -/
def pdStr : PropDef :=
  { propNum := 0, name := "t", type := .string, byteOffset := 40, offset := 20,
    byteSize := 512, allowUndefined := false }

/-- A fresh one-string-property struct. -/
def stFreshStr : BufferState := constructFresh 42 7 [pdStr] 552

/-- Witness for C7: writing the two-unit string `"HI"` to a fresh string
property and reading it back. -/
theorem C7_string_write_truncates_witness :
    ∃ st', structPropSet pdStr stFreshStr (JSVal.str [72, 73]) = .ok st' ∧
      structPropGet pdStr st' = .ok (JSVal.str (([72, 73] : List Nat).take 255)) :=
  C7_string_write_truncates pdStr stFreshStr [72, 73] (JSVal.str [])
    rfl (by decide) (by decide) (by decide) (by decide) (by decide) (by decide)

/-! ### Claim C4: the notify decision in the mutation cycle -/

theorem processDirtyProperties_byteLength (defs : List PropDef)
    (so so' : SharedObject.SOState)
    (h : SharedObject.processDirtyProperties defs so = .ok so') :
    so'.struct.byteLength = so.struct.byteLength := by
  unfold SharedObject.processDirtyProperties at h
  cases hgo : SharedObject.processDirtyGo so.struct defs 0 so.mutations so.curProps with
  | error e =>
    rw [hgo] at h
    cases h
  | ok pair =>
    rw [hgo] at h
    simp only [Except.ok.injEq] at h
    rw [← h]
    exact resetDirty_byteLength _

theorem flushGo_byteLength (keys : List String) (defs : List PropDef)
    (props : List (String × JSVal)) (st st' : BufferState)
    (h : SharedObject.flushGo defs props keys st = .ok st') :
    st'.byteLength = st.byteLength := by
  induction keys generalizing st with
  | nil =>
    unfold SharedObject.flushGo at h
    simp only [Except.ok.injEq] at h
    rw [← h]
  | cons key rest ih =>
    unfold SharedObject.flushGo at h
    cases hfind : defs.find? (fun pd => pd.name == key) with
    | none =>
      rw [hfind] at h
      dsimp only at h
      exact ih _ h
    | some pd =>
      rw [hfind] at h
      dsimp only at h
      cases hget : structPropGet pd st with
      | error e =>
        rw [hget, exceptBind_error] at h
        cases h
      | ok cur =>
        rw [hget, exceptBind_ok] at h
        cases hset : structPropSet pd st (SharedObject.lookupProp props key) with
        | error e =>
          rw [hset, exceptBind_error] at h
          cases h
        | ok st1 =>
          rw [hset, exceptBind_ok] at h
          rw [ih _ h]
          exact structPropSet_byteLength pd st _ st1 hset

theorem flushMutations_byteLength (defs : List PropDef)
    (so so' : SharedObject.SOState)
    (h : SharedObject.flushMutations defs so = .ok so') :
    so'.struct.byteLength = so.struct.byteLength := by
  unfold SharedObject.flushMutations at h
  cases hgo : SharedObject.flushGo defs so.curProps so.mutations so.struct with
  | error e =>
    rw [hgo] at h
    cases h
  | ok st =>
    rw [hgo] at h
    simp only [Except.ok.injEq] at h
    rw [← h]
    exact flushGo_byteLength _ _ _ _ _ hgo

/-- The flush-onwards tail of `_executeMutations`: the notify decision. -/
theorem executeMutations_tail (defs : List PropDef) (workerId : Int)
    (so1 so' : SharedObject.SOState) (e : Int) (notified : Bool)
    (hw1 : -2147483648 ≤ workerId) (hw2 : workerId < 2147483648)
    (hlen1 : 40 ≤ so1.struct.byteLength)
    (hex : (SharedObject.flushMutations defs so1 >>= fun so2 =>
      if BufferStruct.isDirty so2.struct none then
        Except.ok (⟨i32write so2.struct BufferStruct.NOTIFY_INT32_INDEX workerId,
          so2.curProps, so2.mutations⟩, workerId, true)
      else Except.ok (so2, BufferStruct.notifyValue so2.struct, false)) =
      .ok (so', e, notified)) :
    notified = BufferStruct.isDirty so'.struct none ∧
    (notified = true → e = workerId ∧ BufferStruct.notifyValue so'.struct = workerId) ∧
    (notified = false → e = BufferStruct.notifyValue so'.struct) := by
  cases h2 : SharedObject.flushMutations defs so1 with
  | error err =>
    rw [h2] at hex
    cases hex
  | ok so2 =>
    rw [h2] at hex
    have hlen2 : so2.struct.byteLength = so1.struct.byteLength :=
      flushMutations_byteLength defs so1 so2 h2
    by_cases hd : BufferStruct.isDirty so2.struct none = true
    · rw [show (Except.ok so2 >>= fun so2 =>
        if BufferStruct.isDirty so2.struct none then
          Except.ok (⟨i32write so2.struct BufferStruct.NOTIFY_INT32_INDEX workerId,
            so2.curProps, so2.mutations⟩, workerId, true)
        else Except.ok (so2, BufferStruct.notifyValue so2.struct, false)) =
        (if BufferStruct.isDirty so2.struct none then
          Except.ok (⟨i32write so2.struct BufferStruct.NOTIFY_INT32_INDEX workerId,
            so2.curProps, so2.mutations⟩, workerId, true)
        else Except.ok (so2, BufferStruct.notifyValue so2.struct, false)) from rfl,
        hd] at hex
      simp only [if_pos, Except.ok.injEq, Prod.mk.injEq] at hex
      obtain ⟨hso, he, hn⟩ := hex
      refine ⟨?_, ?_, ?_⟩
      · rw [← hn, ← hso]
        unfold BufferStruct.NOTIFY_INT32_INDEX
        dsimp only
        rw [isDirty_none_i32write _ _ _ (by omega) (by omega), hd]
      · intro _
        refine ⟨he.symm, ?_⟩
        rw [← hso]
        unfold BufferStruct.notifyValue BufferStruct.NOTIFY_INT32_INDEX
        dsimp only
        rw [i32read_i32write_self _ _ _ (by
          unfold i32len
          omega)]
        exact int32Wrap_of_range workerId hw1 hw2
      · intro hfalse
        rw [hfalse] at hn
        cases hn
    · simp only [Bool.not_eq_true] at hd
      rw [show (Except.ok so2 >>= fun so2 =>
        if BufferStruct.isDirty so2.struct none then
          Except.ok (⟨i32write so2.struct BufferStruct.NOTIFY_INT32_INDEX workerId,
            so2.curProps, so2.mutations⟩, workerId, true)
        else Except.ok (so2, BufferStruct.notifyValue so2.struct, false)) =
        (if BufferStruct.isDirty so2.struct none then
          Except.ok (⟨i32write so2.struct BufferStruct.NOTIFY_INT32_INDEX workerId,
            so2.curProps, so2.mutations⟩, workerId, true)
        else Except.ok (so2, BufferStruct.notifyValue so2.struct, false)) from rfl,
        hd] at hex
      simp only [Bool.false_eq_true, if_false, Except.ok.injEq, Prod.mk.injEq] at hex
      obtain ⟨hso, he, hn⟩ := hex
      refine ⟨?_, ?_, ?_⟩
      · rw [← hn, ← hso, hd]
      · intro htrue
        rw [htrue] at hn
        cases hn
      · intro _
        rw [← hso, ← he]

/-- C4 (amended): after flushing the locally staged mutations, the mutation
cycle calls `notify(myWorkerId)` and makes the subsequent `waitAsync` expect
`myWorkerId` exactly when `isDirty()` is true at that point — whether the
dirty bits were set by the flush itself or are left over from an earlier
flush not yet consumed by the peer; otherwise the notify word is not stored
to and the current notify word is used unchanged. -/
theorem C4_notify_iff_dirty (defs : List PropDef) (workerId : Int)
    (so so' : SharedObject.SOState) (e : Int) (notified : Bool)
    (hw1 : -2147483648 ≤ workerId) (hw2 : workerId < 2147483648)
    (hlen : 40 ≤ so.struct.byteLength)
    (hex : SharedObject.executeMutations defs workerId so = .ok (so', e, notified)) :
    notified = BufferStruct.isDirty so'.struct none ∧
    (notified = true → e = workerId ∧ BufferStruct.notifyValue so'.struct = workerId) ∧
    (notified = false → e = BufferStruct.notifyValue so'.struct) := by
  unfold SharedObject.executeMutations at hex
  by_cases hc : (decide (BufferStruct.notifyValue so.struct ≠ workerId) &&
      BufferStruct.isDirty so.struct none) = true
  · rw [if_pos hc] at hex
    cases h1 : SharedObject.processDirtyProperties defs so with
    | error err =>
      rw [h1] at hex
      cases hex
    | ok so1 =>
      rw [h1] at hex
      have hlen1 : 40 ≤ so1.struct.byteLength := by
        rw [processDirtyProperties_byteLength defs so so1 h1]
        exact hlen
      exact executeMutations_tail defs workerId so1 so' e notified hw1 hw2 hlen1 hex
  · rw [if_neg hc] at hex
    exact executeMutations_tail defs workerId so so' e notified hw1 hw2 hlen hex

/-- A 48-byte buffer whose notify word is 1 (our worker id) and whose first
dirty word is 1 — dirty bits left over from an earlier flush that the peer
has not yet consumed. -/
def stLeftoverDirty : BufferState :=
  { byteLength := 48, u16 := fun _ => 0,
    i32 := fun i => if i = 1 then 1 else if i = 6 then 1 else 0,
    f64 := fun _ => 0 }

/-- A SharedObject state with no staged mutations over `stLeftoverDirty`. -/
def soLeftoverDirty : SharedObject.SOState :=
  { struct := stLeftoverDirty, curProps := [], mutations := [] }

/-- C4 counterexample: with no staged mutations (step b writes nothing and
sets no dirty bit — `flushMutations` returns the state unchanged) but a
dirty bit left over from an earlier flush, `_executeMutations` still invokes
`notify(myWorkerId)` and waits on `myWorkerId`, contradicting the claim's
"if and only if step b itself set at least one dirty bit". -/
theorem C4_counterexample :
    (SharedObject.executeMutations [pdNum] 1 soLeftoverDirty).map
      (fun r => (r.2.1, r.2.2)) = .ok (1, true) ∧
    SharedObject.flushMutations [pdNum] soLeftoverDirty = .ok soLeftoverDirty ∧
    BufferStruct.isDirty soLeftoverDirty.struct none = true ∧
    BufferStruct.notifyValue soLeftoverDirty.struct = 1 :=
  ⟨rfl, rfl, by decide, by decide⟩

/-- A SharedObject state with no staged mutations over a clean 40-byte
buffer. -/
def soClean : SharedObject.SOState :=
  { struct := buf40, curProps := [], mutations := [] }

/-- Witness for C4 on a clean state: no dirty bit after the flush, so no
notify and the current notify word (0) is expected. -/
theorem C4_notify_iff_dirty_witness :
    (false : Bool) = BufferStruct.isDirty soClean.struct none ∧
    ((false : Bool) = true → (0 : Int) = 1 ∧ BufferStruct.notifyValue soClean.struct = 1) ∧
    ((false : Bool) = false → (0 : Int) = BufferStruct.notifyValue soClean.struct) :=
  C4_notify_iff_dirty [pdNum] 1 soClean soClean 0 false (by norm_num) (by norm_num)
    (by decide) rfl
